import Mathlib

set_option autoImplicit false

/-! # GLMViz: the coordination layer of `src/GLMViz.cpp`

A shallow embedding of the renderer reconciler (`update_render_configs`), the
frame loop (`mainloop`), the two draw callbacks of `main`, the top-level
handler of `main` and the capture wrapper `Input_thread`, followed by the
properties established about them.

Conventions of the embedding.

* A C++ statement that may throw is a `Step σ`: it maps the state to the state
  reached and, when an exception left the statement, that exception.  The state
  reached is kept in both cases, because the effects made before a `throw` stay.
* An object owned through `std::unique_ptr` is an `Obj`: its address (its
  identity) and its current state.  `::make_unique` takes the next address of a
  counter, so an address is never handed out twice.
* The classes that are not part of `GLMViz.cpp` (`Spectrum`, `Oscilloscope`,
  `Config`, `FFT`, `Buffer`, `Input`, GLFW) are parameters of the definitions.
-/

namespace GLMViz

/-! ## Exceptions and statements -/

/-- What can end a statement early.  The exception classes the handlers of
`GLMViz.cpp` tell apart: `std::out_of_range` (caught in
`update_render_configs`), `std::runtime_error` with everything derived from
it, such as `glfw_error` (caught in `main`), and every other exception type.
And `fault`, which is not an exception: the process is ended on the spot, as
by the integer division by zero of line 150, and no handler takes it. -/
inductive Exn where
  | out_of_range (what : String)
  | runtime_error (what : String)
  | other (what : String)
  | fault (what : String)
  deriving DecidableEq, Repr

/-- A statement that may throw. -/
abbrev Step (σ : Type) := σ → σ × Option Exn

/-- Sequencing `a; b`: `b` runs only when `a` did not throw. -/
def Step.andThen {σ : Type} (a b : Step σ) : Step σ := fun s =>
  match a s with
  | (s1, none) => b s1
  | (s1, some e) => (s1, some e)

/-- A statement that cannot throw. -/
def Step.pure {σ : Type} (f : σ → σ) : Step σ := fun s => (f s, none)

/-- A range-based `for` loop `for (x : xs) body(x);`. -/
def Step.forEach {σ α : Type} (body : α → Step σ) : List α → Step σ
  | [] => fun s => (s, none)
  | x :: xs => Step.andThen (body x) (Step.forEach body xs)

/-- A two-argument collaborator written as a total function never throws. -/
def total2 {α β γ : Type} (f : α → β → γ) : α → β → Except Exn γ := fun a b => .ok (f a b)

/-! ## The renderer reconciler: `update_render_configs` -/

/-- A renderer held by a `std::unique_ptr`: the address is the identity of the
object, `st` its current state. -/
structure Obj (R : Type) where
  addr : Nat
  st : R
  deriving DecidableEq, Repr

/-- The calls `update_render_configs` makes on renderer objects. -/
inductive Action (C : Type) where
  /-- The call `renderer.at(i)->configure(c)` on the object at `addr`. -/
  | configure (addr : Nat) (c : C)
  /-- The call `::make_unique<R>(c, i)`, the object being placed at `addr`. -/
  | construct (c : C) (i : Nat) (addr : Nat)
  /-- The destructor run by `renderer.erase` on the object at `addr`. -/
  | destroy (addr : Nat)
  deriving DecidableEq, Repr

/-- What `update_render_configs` works on: the vector `renderer`, the
allocator's next address, and the calls made so far. -/
structure Rec (R C : Type) where
  renderer : List (Obj R)
  next : Nat
  log : List (Action C)
  deriving DecidableEq, Repr

section Reconciler

variable {R C : Type}

/-- The `try` block of line 121, `renderer.at(i) -> configure(configs[i]);`.
`at` throws `std::out_of_range` when `i` is not an index of the vector;
otherwise `configure` is called on the object and may throw anything.  What a
throwing `configure` leaves of the object is not visible in `GLMViz.cpp`; the
object keeps the state it had. -/
def try_configure (configure : R → C → Except Exn R) (i : Nat) (c : C) : Step (Rec R C) :=
  fun s =>
    match s.renderer[i]? with
    | none => (s, some (Exn.out_of_range "vector::at"))
    | some o =>
      let s1 := { s with log := s.log ++ [Action.configure o.addr c] }
      match configure o.st c with
      | .error e => (s1, some e)
      | .ok st => ({ s1 with renderer := s1.renderer.set i { o with st := st } }, none)

/-- The handler body of line 124,
`renderer.push_back(::make_unique<R>(configs[i], i));`. -/
def make_new (construct : C → Nat → Except Exn R) (i : Nat) (c : C) : Step (Rec R C) :=
  fun s =>
    let s1 := { s with log := s.log ++ [Action.construct c i s.next] }
    match construct c i with
    | .error e => (s1, some e)
    | .ok st => ({ s1 with renderer := s1.renderer ++ [{ addr := s.next, st := st }],
                           next := s.next + 1 }, none)

/-- One iteration of the loop of lines 118-126: the `try` block, and the
`catch (std::out_of_range&)` handler, which takes every `std::out_of_range`
that leaves the `try` block and lets every other exception pass. -/
def loop_body (configure : R → C → Except Exn R) (construct : C → Nat → Except Exn R)
    (i : Nat) (c : C) : Step (Rec R C) :=
  fun s =>
    match try_configure configure i c s with
    | (s1, some (Exn.out_of_range _)) => make_new construct i c s1
    | r => r

/-- The loop `for (unsigned i = 0; i < configs.size(); i++)`, entered at
index `i` with `cs` the configs from index `i` on, so that the head of `cs`
is `configs[i]`.  The counter is a natural number: an `unsigned` does not
wrap below `2^32`, and config lists of that length are not considered. -/
def loop (configure : R → C → Except Exn R) (construct : C → Nat → Except Exn R) :
    List C → Nat → Step (Rec R C)
  | [], _ => fun s => (s, none)
  | c :: cs, i => Step.andThen (loop_body configure construct i c)
      (loop configure construct cs (i + 1))

/-- Lines 128-130: `renderer.erase(renderer.begin() + configs.size(), renderer.end())`
when the vector is longer than the config list. -/
def erase_rest (n : Nat) : Step (Rec R C) := fun s =>
  if s.renderer.length > n then
    ({ s with renderer := s.renderer.take n,
              log := s.log ++ (s.renderer.drop n).map (fun o => Action.destroy o.addr) }, none)
  else (s, none)

/-- The function `update_render_configs(renderer, configs)` of lines 116-131. -/
def update_render_configs (configure : R → C → Except Exn R)
    (construct : C → Nat → Except Exn R) (configs : List C) : Step (Rec R C) :=
  Step.andThen (loop configure construct configs 0) (erase_rest configs.length)

/-- The objects the handler of line 124 appends for the configs `cs`, the
first of them for index `i` and at address `n`. -/
def fresh (ctor : C → Nat → R) : List C → Nat → Nat → List (Obj R)
  | [], _, _ => []
  | c :: cs, i, n => { addr := n, st := ctor c i } :: fresh ctor cs (i + 1) (n + 1)

/-- The constructor calls that go with `fresh`. -/
def fresh_log : List C → Nat → Nat → List (Action C)
  | [], _, _ => []
  | c :: cs, i, n => Action.construct c i n :: fresh_log cs (i + 1) (n + 1)

end Reconciler

/-! ### Concrete renderers used in the scenarios -/

/-- A test renderer: remembers the config it was last configured or
constructed with, the index it was constructed with, and how often it was
configured. -/
structure TestRenderer where
  cfg : Nat
  index : Nat
  configured : Nat
  deriving DecidableEq, Repr

/-- The constructor of the test renderer. -/
def TestRenderer.ctor (c : Nat) (i : Nat) : TestRenderer :=
  { cfg := c, index := i, configured := 0 }

/-- The `configure` of the test renderer. -/
def TestRenderer.configure (r : TestRenderer) (c : Nat) : TestRenderer :=
  { r with cfg := c, configured := r.configured + 1 }

/-- A `configure` that throws `std::out_of_range` on the config value 13. -/
def TestRenderer.configure_range (r : TestRenderer) (c : Nat) : Except Exn TestRenderer :=
  if c = 13 then .error (Exn.out_of_range "configure") else .ok (r.configure c)

/-! ## The configuration snapshot and the application state of `main` -/

/-- The colour record `Config::Color`, one level per channel of `rgba`. -/
structure Color where
  r : Nat
  g : Nat
  b : Nat
  a : Nat
  deriving DecidableEq, Repr

/-- The fields of `Config` that `GLMViz.cpp` reads.  `SC` and `OC` are the
element types of `config.spectra` and `config.oscilloscopes`.  The class is
not part of `GLMViz.cpp`; `fps` is taken as a signed integer, so that
`1000000 / config.fps - 100` is signed arithmetic. -/
structure Config (SC OC : Type) where
  spectra : List SC
  oscilloscopes : List OC
  fps : Int
  buf_size : Nat
  fft_size : Nat
  stereo : Bool
  bg_color : Color
  deriving DecidableEq, Repr

/-- The sample stores of `main`. -/
inductive Store where
  | buffer
  | lbuffer
  | rbuffer
  deriving DecidableEq, Repr

/-- The analysis contexts of `main`: `fft` in the mono branch, `ffts[0]` and
`ffts[1]` in the stereo branch. -/
inductive Ctx where
  | fft
  | ffts0
  | ffts1
  deriving DecidableEq, Repr

/-- The collaborator calls of the draw callbacks.  Renderers are named by
their address. -/
inductive Call where
  | calculate (ctx : Ctx) (store : Store)
  | update_buffer (osc : Nat) (stores : List Store)
  | update_fft (spec : Nat) (ctxs : List Ctx)
  | draw_spectrum (spec : Nat)
  | draw_oscilloscope (osc : Nat)
  deriving DecidableEq, Repr

/-- The three numbers `generate_title` streams into the title. -/
inductive TitleField where
  | f_st
  | delta_f
  | dur
  deriving DecidableEq, Repr

/-- The collaborators of `main` that are not defined in `GLMViz.cpp`:
the renderer classes (`SR` is `Spectrum`, `OR` is `Oscilloscope`), the
formatting of the numbers of the title, and for each call of a draw callback
the exception it throws, if any. -/
structure Ext (SR OR SC OC : Type) where
  spec_configure : SR → SC → Except Exn SR
  spec_ctor : SC → Nat → Except Exn SR
  osc_configure : OR → OC → Except Exn OR
  osc_ctor : OC → Nat → Except Exn OR
  resize : Store → Nat → Option Exn
  fails : Call → Option Exn
  title_num : Config SC OC → TitleField → String

/-- The locals of `main` the two callbacks capture by reference: the renderer
vectors, the allocator, the capacity of each sample store, the colour given to
`glClearColor`, and the calls the draw callbacks made.  The state `st` of a
renderer is what its constructor and `configure` determine. -/
structure App (SR OR : Type) where
  spectra : List (Obj SR)
  oscilloscopes : List (Obj OR)
  next : Nat
  stores : List (Store × Nat)
  clear_color : Color
  calls : List Call
  deriving DecidableEq, Repr

section Callbacks

variable {SR OR SC OC : Type}

/-- The function `set_bg_color`: `glClearColor(rgba[0], rgba[1], rgba[2], 0.f)`. -/
def set_bg_color (color : Color) : Step (App SR OR) :=
  Step.pure (fun a => { a with clear_color := { color with a := 0 } })

/-- The function `generate_title`. -/
def generate_title (ext : Ext SR OR SC OC) (config : Config SC OC) : String :=
  let title := "GLMViz:"
  let title := if config.spectra.length > 0 then
      title ++ " Spectrum (f_st=" ++ ext.title_num config TitleField.f_st ++ "Hz, \u0394f="
        ++ ext.title_num config TitleField.delta_f ++ "Hz)"
    else title
  let title := if config.oscilloscopes.length > 0 then
      title ++ " Oscilloscope (dur=" ++ ext.title_num config TitleField.dur ++ "ms)"
    else title
  title

/-- The call `update_render_configs(spectra, config.spectra)` inside `main`. -/
def reconcile_spectra (ext : Ext SR OR SC OC) (config : Config SC OC) : Step (App SR OR) :=
  fun a =>
    match update_render_configs ext.spec_configure ext.spec_ctor config.spectra
        { renderer := a.spectra, next := a.next, log := [] } with
    | (r, e) => ({ a with spectra := r.renderer, next := r.next }, e)

/-- The call `update_render_configs(oscilloscopes, config.oscilloscopes)`
inside `main`. -/
def reconcile_oscilloscopes (ext : Ext SR OR SC OC) (config : Config SC OC) :
    Step (App SR OR) :=
  fun a =>
    match update_render_configs ext.osc_configure ext.osc_ctor config.oscilloscopes
        { renderer := a.oscilloscopes, next := a.next, log := [] } with
    | (r, e) => ({ a with oscilloscopes := r.renderer, next := r.next }, e)

/-- The call `b.resize(config.buf_size)` on one sample store. -/
def resize_store (ext : Ext SR OR SC OC) (b : Store) (n : Nat) : Step (App SR OR) :=
  fun a =>
    match ext.resize b n with
    | some e => (a, some e)
    | none => ({ a with stores := a.stores.map (fun p => if p.1 = b then (b, n) else p) }, none)

/-- The on-reload callback of the mono branch, lines 245-253. -/
def f_update_mono (ext : Ext SR OR SC OC) (config : Config SC OC) : Step (App SR OR) :=
  Step.andThen (resize_store ext Store.buffer config.buf_size)
    (Step.andThen (reconcile_spectra ext config)
      (Step.andThen (reconcile_oscilloscopes ext config)
        (set_bg_color config.bg_color)))

/-- The on-reload callback of the stereo branch, lines 284-294. -/
def f_update_stereo (ext : Ext SR OR SC OC) (config : Config SC OC) : Step (App SR OR) :=
  Step.andThen (resize_store ext Store.lbuffer config.buf_size)
    (Step.andThen (resize_store ext Store.rbuffer config.buf_size)
      (Step.andThen (reconcile_spectra ext config)
        (Step.andThen (reconcile_oscilloscopes ext config)
          (set_bg_color config.bg_color))))

/-- One collaborator call of a draw callback: it is recorded, and throws when
the collaborator does. -/
def call (ext : Ext SR OR SC OC) (c : Call) : Step (App SR OR) :=
  fun a => ({ a with calls := a.calls ++ [c] }, ext.fails c)

/-- The draw callback of the mono branch, lines 254-268.  The loops run over
the vectors as they are when the callback is entered. -/
def f_draw_mono (ext : Ext SR OR SC OC) : Step (App SR OR) := fun a =>
  Step.andThen (call ext (Call.calculate Ctx.fft Store.buffer))
    (Step.andThen
      (Step.forEach (fun o => call ext (Call.update_buffer o.addr [Store.buffer]))
        a.oscilloscopes)
      (Step.andThen
        (Step.forEach (fun s => Step.andThen (call ext (Call.update_fft s.addr [Ctx.fft]))
          (call ext (Call.draw_spectrum s.addr))) a.spectra)
        (Step.forEach (fun o => call ext (Call.draw_oscilloscope o.addr)) a.oscilloscopes)))
    a

/-- The draw callback of the stereo branch, lines 295-310. -/
def f_draw_stereo (ext : Ext SR OR SC OC) : Step (App SR OR) := fun a =>
  Step.andThen (call ext (Call.calculate Ctx.ffts0 Store.lbuffer))
    (Step.andThen (call ext (Call.calculate Ctx.ffts1 Store.rbuffer))
      (Step.andThen
        (Step.forEach
          (fun o => call ext (Call.update_buffer o.addr [Store.lbuffer, Store.rbuffer]))
          a.oscilloscopes)
        (Step.andThen
          (Step.forEach
            (fun s => Step.andThen (call ext (Call.update_fft s.addr [Ctx.ffts0, Ctx.ffts1]))
              (call ext (Call.draw_spectrum s.addr))) a.spectra)
          (Step.forEach (fun o => call ext (Call.draw_oscilloscope o.addr))
            a.oscilloscopes))))
    a

end Callbacks

/-! ### The frame order of the spec, and the vocabulary to talk about it -/

/-- The reference order of a single-channel frame, after section 4.5 of the
spec: compute the analysis context from the sample store; update every
oscilloscope from the sample store; update and draw every spectrum from the
analysis context; draw every oscilloscope.  `S` and `O` name the spectrum and
oscilloscope renderers in list order. -/
def spec_frame_mono (S O : List Nat) : List Call :=
  [Call.calculate Ctx.fft Store.buffer]
    ++ O.map (fun o => Call.update_buffer o [Store.buffer])
    ++ S.flatMap (fun s => [Call.update_fft s [Ctx.fft], Call.draw_spectrum s])
    ++ O.map (fun o => Call.draw_oscilloscope o)

/-- The reference order of a dual-channel frame, after section 4.5 of the
spec: compute both analysis contexts; update the oscilloscopes from both
stores; update and draw the spectra from both contexts; draw the
oscilloscopes. -/
def spec_frame_stereo (S O : List Nat) : List Call :=
  [Call.calculate Ctx.ffts0 Store.lbuffer, Call.calculate Ctx.ffts1 Store.rbuffer]
    ++ O.map (fun o => Call.update_buffer o [Store.lbuffer, Store.rbuffer])
    ++ S.flatMap (fun s => [Call.update_fft s [Ctx.ffts0, Ctx.ffts1], Call.draw_spectrum s])
    ++ O.map (fun o => Call.draw_oscilloscope o)

/-- The analysis computations. -/
def Call.isCalculate : Call → Bool
  | Call.calculate _ _ => true
  | _ => false

/-- The oscilloscope updates `update_buffer`. -/
def Call.isUpdateBuffer : Call → Bool
  | Call.update_buffer _ _ => true
  | _ => false

/-- The spectrum updates `update_fft`. -/
def Call.isUpdateFft : Call → Bool
  | Call.update_fft _ _ => true
  | _ => false

/-- The renderer updates of either kind. -/
def Call.isUpdate (c : Call) : Bool := c.isUpdateBuffer || c.isUpdateFft

/-- The `draw()` calls of oscilloscopes. -/
def Call.isDrawOscilloscope : Call → Bool
  | Call.draw_oscilloscope _ => true
  | _ => false

/-- The `draw()` calls of either kind of renderer. -/
def Call.isDraw : Call → Bool
  | Call.draw_spectrum _ => true
  | Call.draw_oscilloscope _ => true
  | _ => false

/-- In the call sequence `t`, every call of kind `p` is made before every call
of kind `q`: no call of kind `q` is followed, at any distance, by a call of
kind `p`. -/
def precedes (p q : Call → Bool) (t : List Call) : Prop :=
  t.Pairwise (fun a b => ¬ (q a = true ∧ p b = true))

instance (p q : Call → Bool) (t : List Call) : Decidable (precedes p q t) := by
  unfold precedes; infer_instance

/-- Collaborators for the scenarios: test renderers on both sides, nothing
throws. -/
def test_ext : Ext TestRenderer TestRenderer Nat Nat :=
  { spec_configure := total2 TestRenderer.configure
    spec_ctor := total2 TestRenderer.ctor
    osc_configure := total2 TestRenderer.configure
    osc_ctor := total2 TestRenderer.ctor
    resize := fun _ _ => none
    fails := fun _ => none
    title_num := fun _ _ => "0" }

/-- An application state with the given renderer addresses and nothing else. -/
def test_app (S O : List Nat) : App TestRenderer TestRenderer :=
  { spectra := S.map (fun n => { addr := n, st := TestRenderer.ctor 0 0 })
    oscilloscopes := O.map (fun n => { addr := n, st := TestRenderer.ctor 0 0 })
    next := 100
    stores := []
    clear_color := { r := 0, g := 0, b := 0, a := 0 }
    calls := [] }

/-! ## The reload trigger and the frame loop: `mainloop` -/

/-- The value of `GLFW_KEY_R` in the GLFW header. -/
def GLFW_KEY_R : Int := 82

/-- The value of `GLFW_PRESS` in the GLFW header. -/
def GLFW_PRESS : Int := 1

/-- The calls and effects of `mainloop`, in program order. -/
inductive Ev where
  | print_reloading
  | clear_flag
  | reload
  | set_title (title : String)
  | f_update
  | deadline (t_fps : Int)
  | gl_clear
  | f_draw
  | swap_buffers
  | poll_events
  | sleep_until (t_fps : Int)
  deriving DecidableEq, Repr

/-- The state `mainloop` works on: the configuration snapshot, the state `σ`
its two callbacks capture, the global `config_reload`, the reading of
`std::chrono::steady_clock` in microseconds, and the calls made so far. -/
structure Loop (SC OC σ : Type) where
  config : Config SC OC
  app : σ
  config_reload : Bool
  clock : Int
  trace : List Ev

/-- What the outside world does during one iteration of `mainloop`:
how often `SIGUSR1` is delivered between the test of line 137 and the next
statement that touches the flag (the store of line 139 when the test
succeeded); how often it is delivered after that store while
`config.reload()` runs; what `config.reload()` does and how long the reload
step takes; how often `SIGUSR1` is delivered after `config.reload()` while the
title is set and `f_update` runs (the two counts of the reload step matter
only in an iteration that reloads); how often it is delivered from line 150 to
the end of the iteration; the `(key, action)` pairs of the key events
`glfwPollEvents` dispatches; the duration of lines 152-159; and the value of
`glfwWindowShouldClose(window)` at line 164. -/
structure Frame (SC OC : Type) where
  sig_after_test : Nat
  sig_reload : Nat
  reloaded : Except Exn (Config SC OC)
  reload_time : Nat
  sig_update : Nat
  sig_later : Nat
  keys : List (Int × Int)
  work : Nat
  should_close : Int

section Mainloop

variable {SC OC σ : Type}

/-- The signal handler `sighandler`: `config_reload = true;`. -/
def sighandler (s : Loop SC OC σ) : Loop SC OC σ :=
  { s with config_reload := true }

/-- The key handler `key_callback`. -/
def key_callback (key action : Int) (s : Loop SC OC σ) : Loop SC OC σ :=
  if key = GLFW_KEY_R ∧ action = GLFW_PRESS then { s with config_reload := true } else s

/-- Deliveries of `SIGUSR1`: `n` runs of `sighandler`. -/
def deliver : Nat → Loop SC OC σ → Loop SC OC σ
  | 0, s => s
  | n + 1, s => deliver n (sighandler s)

/-- The call `glfwPollEvents()`: the pending key events are dispatched to
`key_callback` in order. -/
def poll_events (keys : List (Int × Int)) (s : Loop SC OC σ) : Loop SC OC σ :=
  keys.foldl (fun s k => key_callback k.1 k.2 s)
    { s with trace := s.trace ++ [Ev.poll_events] }

/-- Lines 137-148 of `mainloop`: the test of `config_reload` and, when it
succeeded, the reload step: the output of line 138, the store of line 139,
`config.reload()`, the title, `f_update`.  `SIGUSR1` is delivered between the
test and the store, while `config.reload()` runs, and while the title is set
and `f_update` runs; none of these statements reads or writes the flag, so
where exactly inside them a delivery falls makes no difference. -/
def reload_phase (title : Config SC OC → String) (f_update : Config SC OC → Step σ)
    (fr : Frame SC OC) : Step (Loop SC OC σ) := fun s =>
  let tested := s.config_reload
  let s := deliver fr.sig_after_test s
  if tested then
    let s := { s with trace := s.trace ++ [Ev.print_reloading] }
    let s := { s with config_reload := false, trace := s.trace ++ [Ev.clear_flag] }
    let s := { s with trace := s.trace ++ [Ev.reload] }
    let s := deliver fr.sig_reload s
    match fr.reloaded with
    | .error e => (s, some e)
    | .ok config =>
      let s := { s with config := config, clock := s.clock + fr.reload_time }
      let s := deliver fr.sig_update s
      let s := { s with trace := s.trace ++ [Ev.set_title (title s.config)] }
      let s := { s with trace := s.trace ++ [Ev.f_update] }
      match f_update s.config s.app with
      | (a, e) => ({ s with app := a }, e)
  else (s, none)

/-- Lines 150-162 of `mainloop`: the deadline, the frame, and the wait.  For
`config.fps = 0` the division of line 150 is an integer division by zero: the
process is ended there, before anything is drawn. -/
def frame_phase (f_draw : Config SC OC → Step σ) (fr : Frame SC OC) :
    Step (Loop SC OC σ) := fun s =>
  if s.config.fps = 0 then (s, some (Exn.fault "division by zero"))
  else
    let t_fps := s.clock + (Int.tdiv 1000000 s.config.fps - 100)
    let s := { s with trace := s.trace ++ [Ev.deadline t_fps] }
    let s := deliver fr.sig_later s
    let s := { s with trace := s.trace ++ [Ev.gl_clear] }
    let s := { s with trace := s.trace ++ [Ev.f_draw] }
    match f_draw s.config s.app with
    | (a, some e) => ({ s with app := a }, some e)
    | (a, none) =>
      let s := { s with app := a }
      let s := { s with trace := s.trace ++ [Ev.swap_buffers] }
      let s := poll_events fr.keys s
      let s := { s with clock := s.clock + fr.work }
      let s := { s with trace := s.trace ++ [Ev.sleep_until t_fps] }
      ({ s with clock := max s.clock t_fps }, none)

/-- The body of the `do ... while` loop of `mainloop`. -/
def iteration (title : Config SC OC → String) (f_update f_draw : Config SC OC → Step σ)
    (fr : Frame SC OC) : Step (Loop SC OC σ) :=
  Step.andThen (reload_phase title f_update fr) (frame_phase f_draw fr)

/-- How a run of `mainloop` over a finite script of frames stands at its end:
the loop was left through the close check, an exception left it, or the
script is used up and the loop still runs. -/
inductive Ended where
  | closed
  | raised (e : Exn)
  | running
  deriving DecidableEq, Repr

/-- The function `mainloop`, run over the frames the outside world provides. -/
def mainloop (title : Config SC OC → String) (f_update f_draw : Config SC OC → Step σ) :
    List (Frame SC OC) → Loop SC OC σ → Loop SC OC σ × Ended
  | [], s => (s, Ended.running)
  | fr :: frs, s =>
    match iteration title f_update f_draw fr s with
    | (s1, some e) => (s1, Ended.raised e)
    | (s1, none) =>
      if fr.should_close = 0 then mainloop title f_update f_draw frs s1
      else (s1, Ended.closed)

/-- The states after the reload step of the iterations a run of `mainloop`
reaches, in order.  Every state in which `f_draw` is entered is one of them:
between the reload step and the call of `f_draw` neither the configuration
nor the state of the callbacks changes. -/
def draw_states (title : Config SC OC → String) (f_update f_draw : Config SC OC → Step σ) :
    List (Frame SC OC) → Loop SC OC σ → List (Loop SC OC σ)
  | [], _ => []
  | fr :: frs, s =>
    match reload_phase title f_update fr s with
    | (_, some _) => []
    | (s1, none) =>
      s1 :: (match frame_phase f_draw fr s1 with
        | (_, some _) => []
        | (s2, none) =>
          if fr.should_close = 0 then draw_states title f_update f_draw frs s2 else [])

end Mainloop

/-- A configuration for the scenarios: two spectrum configs, one oscilloscope
config, 60 frames per second, mono. -/
def test_config : Config Nat Nat :=
  { spectra := [10, 11], oscilloscopes := [30], fps := 60, buf_size := 1024,
    fft_size := 1024, stereo := false, bg_color := { r := 0, g := 0, b := 0, a := 1 } }

/-- A loop state for the scenarios, with the given value of the flag. -/
def test_loop (flag : Bool) : Loop Nat Nat (App TestRenderer TestRenderer) :=
  { config := test_config, app := test_app [0, 1] [2], config_reload := flag, clock := 0,
    trace := [] }

/-- A frame for the scenarios: `a` deliveries of `SIGUSR1` right after the
test of the flag, none during the reload step, `b` deliveries later, the given
key events, work that takes `w` microseconds, the configuration file
unchanged, the window left open. -/
def test_frame (a b : Nat) (keys : List (Int × Int)) (w : Nat) : Frame Nat Nat :=
  { sig_after_test := a, sig_reload := 0, reloaded := .ok test_config, reload_time := 0,
    sig_update := 0, sig_later := b, keys := keys, work := w, should_close := 0 }

/-- A frame for the scenarios in which `SIGUSR1` is delivered twice while
`config.reload()` runs and once while `f_update` runs, and at no other time. -/
def test_signal_frame : Frame Nat Nat :=
  { test_frame 0 0 [] 0 with sig_reload := 2, sig_update := 1 }

/-- The number of calls of `config.reload()` in a trace. -/
def reloads (t : List Ev) : Nat := t.count Ev.reload

/-! ## The program: `main` -/

/-- What the outside world does around the loop of `main`: the outcome of
`Config config(config_file)`, of the constructor of the audio source, of
`glfwInit()` and of `glfwCreateWindow`; the outcome of the constructors of the
sample stores, of the `Input_thread` and, after it, of the analysis contexts;
the deliveries of `SIGUSR1` between line 195 and the first iteration; the
clock reading when `mainloop` is entered; and whether the read of the capture
thread that is in flight when the `Input_thread` is destroyed returns, so that
the join of its destructor returns. -/
structure Setup (SC OC : Type) where
  config : Except Exn (Config SC OC)
  input : Option Exn
  glfw_init : Bool
  window : Bool
  buffer : Option Exn
  thread : Option Exn
  fft : Option Exn
  signals : Nat
  start : Int
  join_returns : Bool

/-- What becomes of `main`.
* `returned code stderr`: `main` returns `code`, having written the lines
  `stderr` to `std::cerr`.
* `aborted e`: `main` does not return.  Either `e` is an exception no handler
  takes, and the process ends through `std::terminate`, or `e` is a fault.
  What the terminate handler of the runtime prints is not part of the model.
* `hangs`: `main` does not return: it is blocked in the `th_input.join()` of
  `~Input_thread` because the read in flight never returns.
* `running`: the script of frames is used up and the loop still runs. -/
inductive Outcome where
  | returned (code : Int) (stderr : List String)
  | aborted (e : Exn)
  | hangs
  | running
  deriving DecidableEq, Repr

section Main

variable {SR OR SC OC : Type}

/-- Lines 174-238 of `main` (to line 275 in the stereo branch): everything up
to and including the construction of the `Input_thread`.  The result is the
state reached, or the exception that left this part; no `Input_thread` exists
then. -/
def startup_thread (ext : Ext SR OR SC OC) (setup : Setup SC OC) :
    Except Exn (Loop SC OC (App SR OR)) :=
  match setup.config with
  | .error e => .error e
  | .ok config =>
    match setup.input with
    | some e => .error e
    | none =>
      if !setup.glfw_init then .error (Exn.runtime_error "GLFW init failed!")
      else if !setup.window then .error (Exn.runtime_error "Failed to create GLFW Window!")
      else
        let app : App SR OR :=
          { spectra := [], oscilloscopes := [], next := 0, stores := [],
            clear_color := { r := 0, g := 0, b := 0, a := 0 }, calls := [] }
        match Step.andThen (set_bg_color config.bg_color)
            (Step.andThen (reconcile_spectra ext config)
              (reconcile_oscilloscopes ext config)) app with
        | (_, some e) => .error e
        | (app, none) =>
          match setup.buffer with
          | some e => .error e
          | none =>
            match setup.thread with
            | some e => .error e
            | none =>
              .ok (deliver setup.signals
                { config := config,
                  app := { app with stores :=
                    if config.stereo then
                      [(Store.lbuffer, config.buf_size), (Store.rbuffer, config.buf_size)]
                    else [(Store.buffer, config.buf_size)] },
                  config_reload := false,
                  clock := setup.start,
                  trace := [] })

/-- Everything before the call of `mainloop`: `startup_thread`, then the
constructors of the analysis contexts (line 241, lines 278-280).  The result
is the state in which `mainloop` is entered, or the exception that left the
setup. -/
def startup (ext : Ext SR OR SC OC) (setup : Setup SC OC) :
    Except Exn (Loop SC OC (App SR OR)) :=
  match startup_thread ext setup with
  | .error e => .error e
  | .ok s =>
    match setup.fft with
    | some e => .error e
    | none => .ok s

/-- The on-reload callback `main` passes to `mainloop`, chosen once by
`config.input.stereo` as read at startup. -/
def f_update (ext : Ext SR OR SC OC) (stereo : Bool) : Config SC OC → Step (App SR OR) :=
  if stereo then f_update_stereo ext else f_update_mono ext

/-- The draw callback `main` passes to `mainloop`. -/
def f_draw (ext : Ext SR OR SC OC) (stereo : Bool) : Config SC OC → Step (App SR OR) :=
  fun _ => if stereo then f_draw_stereo ext else f_draw_mono ext

/-- What becomes of `e` when it leaves the `try` block of `main`; `joins` says
whether the destructors run on the way to the handler return (there is
nothing to join before the `Input_thread` exists).  A `std::runtime_error` is
taken by `catch (std::runtime_error& e)`: the stack is unwound, and then the
message is written to `std::cerr` and `main` returns 1.  Nothing takes an
exception of another class or a fault; the stack is taken not to be unwound
before `std::terminate`, as the common implementations have it. -/
def handler (joins : Bool) : Exn → Outcome
  | Exn.runtime_error what => if joins then Outcome.returned 1 [what] else Outcome.hangs
  | e => Outcome.aborted e

/-- The end of the `try` block reached after `mainloop` returned: the locals
are destroyed, among them the `Input_thread`, and `main` returns 0. -/
def leave (joins : Bool) : Outcome :=
  if joins then Outcome.returned 0 [] else Outcome.hangs

/-- The function `main`. -/
def main (ext : Ext SR OR SC OC) (setup : Setup SC OC) (frames : List (Frame SC OC)) :
    Outcome :=
  match startup_thread ext setup with
  | .error e => handler true e
  | .ok s =>
    match setup.fft with
    | some e => handler setup.join_returns e
    | none =>
      match (mainloop (generate_title ext) (f_update ext s.config.stereo)
          (f_draw ext s.config.stereo) frames s).2 with
      | Ended.closed => leave setup.join_returns
      | Ended.raised e => handler setup.join_returns e
      | Ended.running => Outcome.running

/-- The states after the reload step of the iterations a run of `main`
reaches; every state in which the draw callback is entered is one of them. -/
def main_draw_states (ext : Ext SR OR SC OC) (setup : Setup SC OC)
    (frames : List (Frame SC OC)) : List (Loop SC OC (App SR OR)) :=
  match startup ext setup with
  | .error _ => []
  | .ok s =>
    draw_states (generate_title ext) (f_update ext s.config.stereo)
      (f_draw ext s.config.stereo) frames s

end Main

/-- The renderer-list invariant: each renderer vector is as long as the
config list it is reconciled against. -/
def lists_match {SR OR SC OC : Type} (st : Loop SC OC (App SR OR)) : Prop :=
  st.app.spectra.length = st.config.spectra.length ∧
  st.app.oscilloscopes.length = st.config.oscilloscopes.length

/-- A statement that leaves both renderer vectors as they are. -/
def keeps_lists {SR OR : Type} (st : Step (App SR OR)) : Prop :=
  ∀ a, (st a).1.spectra = a.spectra ∧ (st a).1.oscilloscopes = a.oscilloscopes

/-- A setup for the scenarios in which everything succeeds. -/
def test_setup : Setup Nat Nat :=
  { config := .ok test_config, input := none, glfw_init := true, window := true,
    buffer := none, thread := none, fft := none, signals := 0, start := 0,
    join_returns := true }

/-- A frame for the scenarios in which `config.reload()` reads a configuration
with one spectrum and no oscilloscope, and the window is left open or closed
as `close` says. -/
def test_reload_frame (close : Int) : Frame Nat Nat :=
  { sig_after_test := 0, sig_reload := 0,
    reloaded := .ok { test_config with spectra := [20], oscilloscopes := [] },
    reload_time := 0, sig_update := 0, sig_later := 1, keys := [], work := 0,
    should_close := close }

/-- Collaborators like `test_ext`, except that `calculate` throws an exception
that is not a `std::runtime_error`. -/
def failing_ext : Ext TestRenderer TestRenderer Nat Nat :=
  { test_ext with fails := fun c => if c.isCalculate then some (Exn.other "std::bad_alloc")
                                    else none }

/-! ## The capture wrapper: `Input_thread` -/

/-- Where the background lambda stands: about to evaluate `while(running)`,
past a successful test and about to call `i.read` or `i.read_stereo`, inside
that call, or returned. -/
inductive BgPc where
  | test
  | calling
  | reading
  | exited
  deriving DecidableEq, Repr

/-- Where the owner of the `Input_thread` stands: the object is alive, the
destructor has stored `running = false` and is in `th_input.join()`, or the
destructor has returned. -/
inductive OwnerPc where
  | alive
  | joining
  | returned
  deriving DecidableEq, Repr

/-- What the two threads of an `Input_thread` have done, in order. -/
inductive ThEv where
  | tested (running : Bool)
  | read_begin (stereo : Bool)
  | read_end (stereo : Bool)
  | bg_exit
  | store_false
  | join_return
  deriving DecidableEq, Repr

/-- An `Input_thread` and its background thread. -/
structure InputThread where
  stereo : Bool
  running : Bool
  bg : BgPc
  owner : OwnerPc
  events : List ThEv
  deriving DecidableEq, Repr

/-- Which thread makes the next atomic step. -/
inductive Move where
  | bg
  | owner
  deriving DecidableEq, Repr

/-- The state the constructors of `Input_thread` leave (the mono one for
`stereo = false`): `running(true)` is initialised before `th_input`, whose
lambda is about to make its first test. -/
def Input_thread (stereo : Bool) : InputThread :=
  { stereo := stereo, running := true, bg := BgPc.test, owner := OwnerPc.alive, events := [] }

/-- One atomic step of the background lambda
`while(running){ i.read(buffer); }`: the test of `running`, which leads to the
read or out of the loop; the call of the read; or the return of the read. -/
def bg_step (s : InputThread) : InputThread :=
  match s.bg with
  | BgPc.test =>
    if s.running then
      { s with bg := BgPc.calling, events := s.events ++ [ThEv.tested true] }
    else
      { s with bg := BgPc.exited, events := s.events ++ [ThEv.tested false, ThEv.bg_exit] }
  | BgPc.calling =>
    { s with bg := BgPc.reading, events := s.events ++ [ThEv.read_begin s.stereo] }
  | BgPc.reading => { s with bg := BgPc.test, events := s.events ++ [ThEv.read_end s.stereo] }
  | BgPc.exited => s

/-- One atomic step of the destructor
`~Input_thread(){ running = false; th_input.join(); }`: the store, then the
join, which returns only once the background lambda has returned. -/
def owner_step (s : InputThread) : InputThread :=
  match s.owner with
  | OwnerPc.alive =>
    { s with running := false, owner := OwnerPc.joining,
             events := s.events ++ [ThEv.store_false] }
  | OwnerPc.joining =>
    if s.bg = BgPc.exited then
      { s with owner := OwnerPc.returned, events := s.events ++ [ThEv.join_return] }
    else s
  | OwnerPc.returned => s

/-- One step of the interleaving. -/
def th_step (s : InputThread) : Move → InputThread
  | Move.bg => bg_step s
  | Move.owner => owner_step s

/-- A run of the two threads under a schedule. -/
def th_run (schedule : List Move) (s : InputThread) : InputThread :=
  schedule.foldl th_step s

/-- The events of the background thread. -/
def ThEv.isBg : ThEv → Bool
  | ThEv.store_false => false
  | ThEv.join_return => false
  | _ => true

/-- The calls of `i.read` or `i.read_stereo`. -/
def ThEv.isReadBegin : ThEv → Bool
  | ThEv.read_begin _ => true
  | _ => false

/-- The events strictly after the first occurrence of `e`; none when `e` does
not occur. -/
def after (e : ThEv) : List ThEv → List ThEv
  | [] => []
  | x :: xs => if x = e then xs else after e xs

/-- What the background thread has done when it stands at `pc` after `n`
complete rounds of the loop: `n` times a successful test, the call of the read
and its return, and then the part of the last round that `pc` tells. -/
def bg_events (stereo : Bool) (n : Nat) (pc : BgPc) : List ThEv :=
  (List.replicate n [ThEv.tested true, ThEv.read_begin stereo, ThEv.read_end stereo]).flatten
    ++ (match pc with
      | BgPc.test => []
      | BgPc.calling => [ThEv.tested true]
      | BgPc.reading => [ThEv.tested true, ThEv.read_begin stereo]
      | BgPc.exited => [ThEv.tested false, ThEv.bg_exit])

/-- The number of moves of the background thread in a schedule. -/
def bg_moves (schedule : List Move) : Nat := schedule.count Move.bg

/-- The number of steps the background lambda still makes once `running` is
false: from the call of a read, its return and the failing test. -/
def bg_distance : BgPc → Nat
  | BgPc.calling => 3
  | BgPc.reading => 2
  | BgPc.test => 1
  | BgPc.exited => 0

/-- The invariant of the two threads of an `Input_thread`. -/
structure th_inv (stereo : Bool) (s : InputThread) : Prop where
  stereo_eq : s.stereo = stereo
  alive : s.owner = OwnerPc.alive → s.running = true ∧ ThEv.store_false ∉ s.events
  stopped : s.owner ≠ OwnerPc.alive → s.running = false ∧ ThEv.store_false ∈ s.events
  reads : ((after ThEv.store_false s.events).filter ThEv.isReadBegin).length ≤ 1
  calling : s.bg = BgPc.calling →
    ((after ThEv.store_false s.events).filter ThEv.isReadBegin).length = 0
  joined : s.owner = OwnerPc.returned → s.bg = BgPc.exited ∧ ThEv.join_return ∈ s.events
  not_joined : s.owner ≠ OwnerPc.returned → ThEv.join_return ∉ s.events
  quiet : after ThEv.join_return s.events = []
  pattern : ∃ n, s.events.filter ThEv.isBg = bg_events stereo n s.bg
  no_test : ThEv.tested true ∉ after ThEv.store_false s.events

/-! # Properties -/

/-! ## The reconciler when no collaborator throws -/

section ReconcilerTotal

variable {R C : Type}

theorem fresh_length (ctor : C → Nat → R) (cs : List C) (i n : Nat) :
    (fresh ctor cs i n).length = cs.length := by
  induction cs generalizing i n with
  | nil => rfl
  | cons c cs ih => simp [fresh, ih]

theorem fresh_log_length (cs : List C) (i n : Nat) :
    (fresh_log cs i n).length = cs.length := by
  induction cs generalizing i n with
  | nil => rfl
  | cons c cs ih => simp [fresh_log, ih]

theorem fresh_getElem? (ctor : C → Nat → R) (cs : List C) (i n k : Nat) :
    (fresh ctor cs i n)[k]? = cs[k]?.map (fun c => { addr := n + k, st := ctor c (i + k) }) := by
  induction cs generalizing i n k with
  | nil => simp [fresh]
  | cons c cs ih =>
    cases k with
    | zero => simp [fresh]
    | succ k =>
      simp only [fresh, List.getElem?_cons_succ, ih]
      rw [show n + 1 + k = n + (k + 1) by omega, show i + 1 + k = i + (k + 1) by omega]

theorem fresh_log_getElem? (cs : List C) (i n k : Nat) :
    (fresh_log cs i n)[k]? = cs[k]?.map (fun c => Action.construct c (i + k) (n + k)) := by
  induction cs generalizing i n k with
  | nil => simp [fresh_log]
  | cons c cs ih =>
    cases k with
    | zero => simp [fresh_log]
    | succ k =>
      simp only [fresh_log, List.getElem?_cons_succ, ih]
      rw [show n + 1 + k = n + (k + 1) by omega, show i + 1 + k = i + (k + 1) by omega]

/-- The loop in closed form when `configure` and the constructor are total:
the objects before index `i` are untouched, those facing a config are
reconfigured in place, and one object is appended per config beyond the end
of the vector. -/
theorem loop_total (cfg : R → C → R) (ctor : C → Nat → R) (cs : List C) :
    ∀ (pre rs : List (Obj R)) (i : Nat) (s : Rec R C),
      s.renderer = pre ++ rs → pre.length = i →
      loop (total2 cfg) (total2 ctor) cs i s =
        ({ renderer := pre ++ (List.zipWith (fun o c => { o with st := cfg o.st c }) rs cs ++
              (rs.drop cs.length ++ fresh ctor (cs.drop rs.length) (i + rs.length) s.next)),
           next := s.next + (cs.length - rs.length),
           log := s.log ++ (List.zipWith (fun o c => Action.configure o.addr c) rs cs ++
              fresh_log (cs.drop rs.length) (i + rs.length) s.next) }, none) := by
  induction cs with
  | nil =>
    intro pre rs i s hs _
    cases s
    simp_all [loop, fresh, fresh_log]
  | cons c cs ih =>
    intro pre rs i s hs hi
    cases rs with
    | nil =>
      have hnone : s.renderer[i]? = none := by
        rw [hs]; simp [hi]
      simp only [loop, Step.andThen, loop_body, try_configure, hnone, make_new, total2]
      rw [ih (pre ++ [{ addr := s.next, st := ctor c i }]) [] (i + 1)]
      · simp [fresh, fresh_log, hs]
        omega
      · simp [hs]
      · simp [hi]
    | cons o os =>
      have hsome : s.renderer[i]? = some o := by
        rw [hs, ← hi, List.getElem?_append_right (le_refl _)]; simp
      simp only [loop, Step.andThen, loop_body, try_configure, hsome, total2]
      rw [ih (pre ++ [{ o with st := cfg o.st c }]) os (i + 1)]
      · simp [hs]
        rw [show i + 1 + os.length = i + (os.length + 1) by omega]
        exact ⟨rfl, rfl⟩
      · simp [hs, ← hi]
      · simp [hi]

/-- The whole of `update_render_configs` in closed form when `configure` and
the constructor are total. -/
theorem update_total (cfg : R → C → R) (ctor : C → Nat → R) (cs : List C) (s : Rec R C) :
    update_render_configs (total2 cfg) (total2 ctor) cs s =
      ({ renderer := List.zipWith (fun o c => { o with st := cfg o.st c }) s.renderer cs ++
            fresh ctor (cs.drop s.renderer.length) s.renderer.length s.next,
         next := s.next + (cs.length - s.renderer.length),
         log := s.log ++ (List.zipWith (fun o c => Action.configure o.addr c) s.renderer cs ++
            fresh_log (cs.drop s.renderer.length) s.renderer.length s.next ++
            (s.renderer.drop cs.length).map (fun o => Action.destroy o.addr)) }, none) := by
  have hloop := loop_total cfg ctor cs [] s.renderer 0 s (by simp) rfl
  simp only [List.nil_append, Nat.zero_add] at hloop
  simp only [update_render_configs, Step.andThen, hloop, erase_rest]
  by_cases h : cs.length < s.renderer.length
  · have hd : cs.drop s.renderer.length = [] := List.drop_eq_nil_of_le (by omega)
    have hmin : min s.renderer.length cs.length = cs.length := by omega
    simp only [hd, fresh, fresh_log, List.append_nil, List.length_append, List.length_zipWith,
      List.length_drop, hmin]
    rw [if_pos (by omega)]
    rw [List.take_left' (by simp [hmin]), List.drop_left' (by simp [hmin]), List.append_assoc]
  · have hd : s.renderer.drop cs.length = [] := List.drop_eq_nil_of_le (by omega)
    have hmin : min s.renderer.length cs.length = s.renderer.length := by omega
    simp only [hd, List.nil_append, List.append_nil, List.length_append, List.length_zipWith,
      fresh_length, List.length_drop, hmin, List.map_nil]
    rw [if_neg (by omega)]

theorem zipWith_append_old {α β γ : Type} (f : α → β → γ) (rs : List α) (cs : List β)
    (tail : List γ) (i : Nat) (o : α) (c : β) (ho : rs[i]? = some o) (hc : cs[i]? = some c) :
    (List.zipWith f rs cs ++ tail)[i]? = some (f o c) := by
  have h1 : i < rs.length := (List.getElem?_eq_some.mp ho).1
  have h2 : i < cs.length := (List.getElem?_eq_some.mp hc).1
  rw [List.getElem?_append_left (by simp; omega), List.getElem?_zipWith, ho, hc]

theorem zipWith_append_new {α β γ : Type} (f : α → β → γ) (rs : List α) (cs : List β)
    (tail : List γ) (i : Nat) (h : rs.length ≤ i) (hi : i < cs.length) :
    (List.zipWith f rs cs ++ tail)[i]? = tail[i - rs.length]? := by
  have hmin : min rs.length cs.length = rs.length := by omega
  rw [List.getElem?_append_right (by simp; omega)]
  simp [hmin]

theorem fresh_drop_getElem? (ctor : C → Nat → R) (cs : List C) (m n i : Nat) (c : C)
    (h : m ≤ i) (hc : cs[i]? = some c) :
    (fresh ctor (cs.drop m) m n)[i - m]? = some { addr := n + (i - m), st := ctor c i } := by
  rw [fresh_getElem?, List.getElem?_drop, show m + (i - m) = i by omega, hc]
  rfl

theorem fresh_log_drop_getElem? (cs : List C) (m n i : Nat) (c : C)
    (h : m ≤ i) (hc : cs[i]? = some c) :
    (fresh_log (cs.drop m) m n)[i - m]? = some (Action.construct c i (n + (i - m))) := by
  rw [fresh_log_getElem?, List.getElem?_drop, show m + (i - m) = i by omega, hc]
  rfl

/-- C1. Postcondition of `update_render_configs` when `configure` and the
constructor do not throw, for a live vector whose objects have pairwise
distinct addresses, all handed out by the allocator before the call: no
exception leaves the call; the vector has exactly the length of the config
list; at every index below both lengths stands the object (the address) that
stood there before; at every index from the old length on stands an object
constructed by this call, at an address no object of the old vector has; and
no object that stood at an index from the config length on is in the vector
any more. -/
theorem update_render_configs_postcondition (cfg : R → C → R) (ctor : C → Nat → R)
    (configs : List C) (s : Rec R C)
    (hnext : ∀ o ∈ s.renderer, o.addr < s.next)
    (hdistinct : (s.renderer.map Obj.addr).Nodup) :
    (update_render_configs (total2 cfg) (total2 ctor) configs s).2 = none ∧
    (update_render_configs (total2 cfg) (total2 ctor) configs s).1.renderer.length
      = configs.length ∧
    (∀ i, i < configs.length → i < s.renderer.length →
      ((update_render_configs (total2 cfg) (total2 ctor) configs s).1.renderer[i]?).map Obj.addr
        = (s.renderer[i]?).map Obj.addr) ∧
    (∀ i, s.renderer.length ≤ i → i < configs.length →
      ∃ o c, (update_render_configs (total2 cfg) (total2 ctor) configs s).1.renderer[i]? = some o ∧
        configs[i]? = some c ∧
        Action.construct c i o.addr ∈
          (update_render_configs (total2 cfg) (total2 ctor) configs s).1.log.drop s.log.length ∧
        ∀ o' ∈ s.renderer, o'.addr ≠ o.addr) ∧
    (∀ i o, configs.length ≤ i → s.renderer[i]? = some o →
      ∀ o' ∈ (update_render_configs (total2 cfg) (total2 ctor) configs s).1.renderer,
        o'.addr ≠ o.addr) := by
  rw [update_total]
  refine ⟨rfl, ?_, ?_, ?_, ?_⟩
  · simp only [List.length_append, List.length_zipWith, fresh_length, List.length_drop]
    omega
  · intro i hN hM
    have ho : s.renderer[i]? = some s.renderer[i] := List.getElem?_eq_getElem hM
    have hc : configs[i]? = some configs[i] := List.getElem?_eq_getElem hN
    simp only [zipWith_append_old _ _ _ _ i _ _ ho hc, ho, Option.map_some']
  · intro i hM hN
    have hc : configs[i]? = some configs[i] := List.getElem?_eq_getElem hN
    refine ⟨{ addr := s.next + (i - s.renderer.length), st := ctor configs[i] i }, configs[i],
      ?_, hc, ?_, ?_⟩
    · rw [zipWith_append_new _ _ _ _ i hM hN]
      exact fresh_drop_getElem? ctor configs _ _ i _ hM hc
    · simp only [List.drop_left]
      apply List.mem_append_left
      apply List.mem_append_right
      exact List.mem_iff_getElem?.mpr
        ⟨i - s.renderer.length, fresh_log_drop_getElem? configs _ _ i _ hM hc⟩
    · intro o' ho'
      have := hnext o' ho'
      simp only [ne_eq]
      omega
  · intro i o hN ho o' ho'
    have hM : i < s.renderer.length := (List.getElem?_eq_some.mp ho).1
    have hd : configs.drop s.renderer.length = [] := List.drop_eq_nil_of_le (by omega)
    simp only [hd, fresh, List.append_nil] at ho'
    obtain ⟨j, hj⟩ := List.mem_iff_getElem?.mp ho'
    obtain ⟨x, y, hx, hy, hxy⟩ := List.getElem?_zipWith_eq_some.mp hj
    have hjN : j < configs.length := (List.getElem?_eq_some.mp hy).1
    have hjM : j < s.renderer.length := (List.getElem?_eq_some.mp hx).1
    intro heq
    have haddr : (s.renderer.map Obj.addr)[j]? = (s.renderer.map Obj.addr)[i]? := by
      simp only [List.getElem?_map, hx, ho, Option.map_some', ← hxy, ← heq]
    have := List.getElem?_inj (by simpa using hjM) hdistinct haddr
    omega

/-- Scenarios A and B of C1.  From empty vectors, two spectrum configs and
one oscilloscope config give two and one freshly constructed renderers;
shrinking the spectrum configs to one keeps the object at index 0 (address 0),
reconfigured, and drops the object at address 1. -/
theorem update_render_configs_postcondition_witness :
    update_render_configs (total2 TestRenderer.configure) (total2 TestRenderer.ctor) [10, 11]
        { renderer := [], next := 0, log := [] }
      = ({ renderer := [{ addr := 0, st := { cfg := 10, index := 0, configured := 0 } },
                        { addr := 1, st := { cfg := 11, index := 1, configured := 0 } }],
           next := 2,
           log := [Action.construct 10 0 0, Action.construct 11 1 1] }, none) ∧
    update_render_configs (total2 TestRenderer.configure) (total2 TestRenderer.ctor) [30]
        { renderer := [], next := 2, log := [] }
      = ({ renderer := [{ addr := 2, st := { cfg := 30, index := 0, configured := 0 } }],
           next := 3, log := [Action.construct 30 0 2] }, none) ∧
    update_render_configs (total2 TestRenderer.configure) (total2 TestRenderer.ctor) [20]
        { renderer := [{ addr := 0, st := { cfg := 10, index := 0, configured := 0 } },
                       { addr := 1, st := { cfg := 11, index := 1, configured := 0 } }],
          next := 3, log := [] }
      = ({ renderer := [{ addr := 0, st := { cfg := 20, index := 0, configured := 1 } }],
           next := 3, log := [Action.configure 0 20, Action.destroy 1] }, none) ∧
    (update_render_configs (total2 TestRenderer.configure) (total2 TestRenderer.ctor) [20]
        { renderer := [{ addr := 0, st := { cfg := 10, index := 0, configured := 0 } },
                       { addr := 1, st := { cfg := 11, index := 1, configured := 0 } }],
          next := 3, log := [] }).1.renderer.length = [20].length :=
  ⟨by decide, by decide, by decide,
   (update_render_configs_postcondition TestRenderer.configure TestRenderer.ctor [20]
      { renderer := [{ addr := 0, st := { cfg := 10, index := 0, configured := 0 } },
                     { addr := 1, st := { cfg := 11, index := 1, configured := 0 } }],
        next := 3, log := [] }
      (by decide) (by decide)).2.1⟩

/-- C2. `update_render_configs` is index-aligned when `configure` and the
constructor do not throw.  Among the calls made by one invocation, the call
number `i`, for every index `i` of the config list, is `configure(configs[i])`
on the object that stood at index `i` when such an object existed, and
otherwise the construction of a new object from `(configs[i], i)`, which is
appended and so stands at index `i` afterwards; the calls after these are the
destructor calls of the erased tail only; and afterwards the object at every
index `i` of the config list was last configured or constructed with
`configs[i]`. -/
theorem update_render_configs_index_aligned (cfg : R → C → R) (ctor : C → Nat → R)
    (configs : List C) (s : Rec R C) :
    (∀ i c, configs[i]? = some c →
      (∀ o, s.renderer[i]? = some o →
        ((update_render_configs (total2 cfg) (total2 ctor) configs s).1.log.drop s.log.length)[i]?
            = some (Action.configure o.addr c) ∧
        (update_render_configs (total2 cfg) (total2 ctor) configs s).1.renderer[i]?
            = some { addr := o.addr, st := cfg o.st c }) ∧
      (s.renderer[i]? = none →
        ((update_render_configs (total2 cfg) (total2 ctor) configs s).1.log.drop s.log.length)[i]?
            = some (Action.construct c i (s.next + (i - s.renderer.length))) ∧
        (update_render_configs (total2 cfg) (total2 ctor) configs s).1.renderer[i]?
            = some { addr := s.next + (i - s.renderer.length), st := ctor c i })) ∧
    ((update_render_configs (total2 cfg) (total2 ctor) configs s).1.log.drop s.log.length).drop
        configs.length
      = (s.renderer.drop configs.length).map (fun o => Action.destroy o.addr) ∧
    (update_render_configs (total2 cfg) (total2 ctor) configs s).1.log.take s.log.length
      = s.log := by
  rw [update_total]
  simp only [List.drop_left, List.take_left, List.append_assoc]
  refine ⟨?_, ?_, trivial⟩
  · intro i c hc
    have hN : i < configs.length := (List.getElem?_eq_some.mp hc).1
    constructor
    · intro o ho
      exact ⟨zipWith_append_old _ _ _ _ i o c ho hc, zipWith_append_old _ _ _ _ i o c ho hc⟩
    · intro hnone
      have hM : s.renderer.length ≤ i := List.getElem?_eq_none_iff.mp hnone
      constructor
      · rw [zipWith_append_new _ _ _ _ i hM hN,
          List.getElem?_append_left (by rw [fresh_log_length, List.length_drop]; omega)]
        exact fresh_log_drop_getElem? configs _ _ i c hM hc
      · rw [zipWith_append_new _ _ _ _ i hM hN]
        exact fresh_drop_getElem? ctor configs _ _ i c hM hc
  · rw [← List.append_assoc, List.drop_left']
    simp only [List.length_append, List.length_zipWith, fresh_log_length, List.length_drop]
    omega

/-- A run of C2: a vector of one object against three configs.  Call 0 is
`configure(configs[0])` on the old object, calls 1 and 2 construct from
`(configs[1], 1)` and `(configs[2], 2)`. -/
theorem update_render_configs_index_aligned_witness :
    (update_render_configs (total2 TestRenderer.configure) (total2 TestRenderer.ctor)
        [20, 21, 22]
        { renderer := [{ addr := 5, st := { cfg := 10, index := 0, configured := 0 } }],
          next := 6, log := [] }).1.log
      = [Action.configure 5 20, Action.construct 21 1 6, Action.construct 22 2 7] ∧
    ((update_render_configs (total2 TestRenderer.configure) (total2 TestRenderer.ctor)
        [20, 21, 22]
        { renderer := [{ addr := 5, st := { cfg := 10, index := 0, configured := 0 } }],
          next := 6, log := ([] : List (Action Nat)) }).1.log.drop
            ([] : List (Action Nat)).length)[1]?
      = some (Action.construct 21 1 (6 + (1 - 1))) :=
  ⟨by decide,
   (((update_render_configs_index_aligned TestRenderer.configure TestRenderer.ctor [20, 21, 22]
      { renderer := [{ addr := 5, st := { cfg := 10, index := 0, configured := 0 } }],
        next := 6, log := [] }).1 1 21 (by decide)).2 (by decide)).1⟩

end ReconcilerTotal

/-! ## The reconciler when `configure` throws `std::out_of_range` -/

/-- C6, the failing input.  A vector of one renderer, one config, and a
`configure` that throws `std::out_of_range`: the handler of line 122 takes the
exception, a second renderer is constructed from `(configs[0], 0)` and
appended, the trailing erase destroys it again, and the call returns normally.
With two configs the renderer constructed for index 0 stays, at index 1, and
is then configured with `configs[1]`. -/
theorem update_render_configs_swallows_out_of_range :
    update_render_configs TestRenderer.configure_range (total2 TestRenderer.ctor) [13]
        { renderer := [{ addr := 0, st := { cfg := 10, index := 0, configured := 0 } }],
          next := 1, log := [] }
      = ({ renderer := [{ addr := 0, st := { cfg := 10, index := 0, configured := 0 } }],
           next := 2,
           log := [Action.configure 0 13, Action.construct 13 0 1, Action.destroy 1] },
         none) ∧
    update_render_configs TestRenderer.configure_range (total2 TestRenderer.ctor) [13, 14]
        { renderer := [{ addr := 0, st := { cfg := 10, index := 0, configured := 0 } }],
          next := 1, log := [] }
      = ({ renderer := [{ addr := 0, st := { cfg := 10, index := 0, configured := 0 } },
                        { addr := 1, st := { cfg := 14, index := 0, configured := 1 } }],
           next := 2,
           log := [Action.configure 0 13, Action.construct 13 0 1, Action.configure 1 14] },
         none) :=
  ⟨by decide, by decide⟩

section ReconcilerRaise

variable {R C : Type}

/-- An exception of a class other than `std::out_of_range` that `configure`
throws leaves the loop body, and nothing is done after the call. -/
theorem loop_body_configure_raises (configure : R → C → Except Exn R)
    (construct : C → Nat → Except Exn R) (i : Nat) (c : C) (s : Rec R C) (o : Obj R) (e : Exn)
    (ho : s.renderer[i]? = some o) (he : configure o.st c = .error e)
    (hne : ∀ what, e ≠ Exn.out_of_range what) :
    loop_body configure construct i c s =
      ({ s with log := s.log ++ [Action.configure o.addr c] }, some e) := by
  cases e with
  | out_of_range what => exact absurd rfl (hne what)
  | runtime_error what => simp [loop_body, try_configure, ho, he]
  | other what => simp [loop_body, try_configure, ho, he]
  | fault what => simp [loop_body, try_configure, ho, he]

/-- An exception of any class that the constructor throws leaves the loop
body, and nothing is done after the call. -/
theorem loop_body_construct_raises (configure : R → C → Except Exn R)
    (construct : C → Nat → Except Exn R) (i : Nat) (c : C) (s : Rec R C) (e : Exn)
    (ho : s.renderer[i]? = none) (he : construct c i = .error e) :
    loop_body configure construct i c s =
      ({ s with log := s.log ++ [Action.construct c i s.next] }, some e) := by
  simp [loop_body, try_configure, ho, make_new, he]

/-- An exception that leaves an iteration of the loop leaves
`update_render_configs`: the later iterations and the erase are not run. -/
theorem update_render_configs_raises (configure : R → C → Except Exn R)
    (construct : C → Nat → Except Exn R) (pre : List C) (c : C) (post : List C)
    (s s1 s2 : Rec R C) (e : Exn)
    (hpre : loop configure construct pre 0 s = (s1, none))
    (hbody : loop_body configure construct pre.length c s1 = (s2, some e)) :
    update_render_configs configure construct (pre ++ c :: post) s = (s2, some e) := by
  have hloop : ∀ (pre : List C) (i : Nat) (s : Rec R C),
      loop configure construct pre i s = (s1, none) →
      loop_body configure construct (i + pre.length) c s1 = (s2, some e) →
      loop configure construct (pre ++ c :: post) i s = (s2, some e) := by
    intro pre
    induction pre with
    | nil =>
      intro i s h1 h2
      simp only [loop, Prod.mk.injEq, and_true] at h1
      subst h1
      simp only [List.length_nil, Nat.add_zero] at h2
      simp only [List.nil_append, loop, Step.andThen, h2]
    | cons p pre ih =>
      intro i s h1 h2
      simp only [List.cons_append, loop, Step.andThen] at h1 ⊢
      rcases hb : loop_body configure construct i p s with ⟨t, _ | e'⟩
      · rw [hb] at h1
        simp only at h1 ⊢
        apply ih (i + 1) t h1
        rw [show i + 1 + pre.length = i + (p :: pre).length by simp; omega]
        exact h2
      · rw [hb] at h1
        simp at h1
  have := hloop pre 0 s hpre (by simpa using hbody)
  simp only [update_render_configs, Step.andThen, this]

end ReconcilerRaise

/-! ## The draw callbacks -/

section Draw

variable {SR OR SC OC : Type}

theorem flatten_map_singleton {α β : Type} (g : α → β) (l : List α) :
    (List.map (fun x => [g x]) l).flatten = List.map g l := by
  induction l with
  | nil => rfl
  | cons x l ih => simp [ih]

theorem forEach_calls {α : Type} (body : α → Step (App SR OR)) (f : α → List Call)
    (hbody : ∀ x a, body x a = ({ a with calls := a.calls ++ f x }, none))
    (xs : List α) (a : App SR OR) :
    Step.forEach body xs a = ({ a with calls := a.calls ++ xs.flatMap f }, none) := by
  induction xs generalizing a with
  | nil => simp [Step.forEach]
  | cons x xs ih => simp [Step.forEach, Step.andThen, hbody, ih]

theorem call_quiet (ext : Ext SR OR SC OC) (h : ∀ c, ext.fails c = none) (c : Call)
    (a : App SR OR) : call ext c a = ({ a with calls := a.calls ++ [c] }, none) := by
  simp [call, h]

/-- The calls of the mono draw callback when no collaborator throws. -/
theorem f_draw_mono_calls (ext : Ext SR OR SC OC) (h : ∀ c, ext.fails c = none)
    (a : App SR OR) :
    f_draw_mono ext a =
      ({ a with calls := a.calls ++
          spec_frame_mono (a.spectra.map Obj.addr) (a.oscilloscopes.map Obj.addr) }, none) := by
  have hosc := @forEach_calls SR OR (Obj OR)
    (fun o : Obj OR => call ext (Call.update_buffer o.addr [Store.buffer]))
    (fun o => [Call.update_buffer o.addr [Store.buffer]]) (fun x a => call_quiet ext h _ a)
  have hspec := @forEach_calls SR OR (Obj SR)
    (fun s : Obj SR => Step.andThen (call ext (Call.update_fft s.addr [Ctx.fft]))
      (call ext (Call.draw_spectrum s.addr)))
    (fun s => [Call.update_fft s.addr [Ctx.fft], Call.draw_spectrum s.addr])
    (fun x a => by simp [Step.andThen, call_quiet ext h])
  have hdraw := @forEach_calls SR OR (Obj OR)
    (fun o : Obj OR => call ext (Call.draw_oscilloscope o.addr))
    (fun o => [Call.draw_oscilloscope o.addr]) (fun x a => call_quiet ext h _ a)
  simp only [f_draw_mono, Step.andThen, call_quiet ext h, hosc, hspec, hdraw, spec_frame_mono]
  simp [List.flatMap, List.map_map, Function.comp_def, flatten_map_singleton]

/-- The calls of the stereo draw callback when no collaborator throws. -/
theorem f_draw_stereo_calls (ext : Ext SR OR SC OC) (h : ∀ c, ext.fails c = none)
    (a : App SR OR) :
    f_draw_stereo ext a =
      ({ a with calls := a.calls ++
          spec_frame_stereo (a.spectra.map Obj.addr) (a.oscilloscopes.map Obj.addr) }, none) := by
  have hosc := @forEach_calls SR OR (Obj OR)
    (fun o : Obj OR => call ext (Call.update_buffer o.addr [Store.lbuffer, Store.rbuffer]))
    (fun o => [Call.update_buffer o.addr [Store.lbuffer, Store.rbuffer]])
    (fun x a => call_quiet ext h _ a)
  have hspec := @forEach_calls SR OR (Obj SR)
    (fun s : Obj SR => Step.andThen (call ext (Call.update_fft s.addr [Ctx.ffts0, Ctx.ffts1]))
      (call ext (Call.draw_spectrum s.addr)))
    (fun s => [Call.update_fft s.addr [Ctx.ffts0, Ctx.ffts1], Call.draw_spectrum s.addr])
    (fun x a => by simp [Step.andThen, call_quiet ext h])
  have hdraw := @forEach_calls SR OR (Obj OR)
    (fun o : Obj OR => call ext (Call.draw_oscilloscope o.addr))
    (fun o => [Call.draw_oscilloscope o.addr]) (fun x a => call_quiet ext h _ a)
  simp only [f_draw_stereo, Step.andThen, call_quiet ext h, hosc, hspec, hdraw,
    spec_frame_stereo]
  simp [List.flatMap, List.map_map, Function.comp_def, flatten_map_singleton]

/-- C4. When no collaborator throws, the calls one invocation of the draw
callback makes are exactly the reference order of the spec, in the mono and in
the stereo branch; in that order the analysis is computed once per context
(`fft`; `ffts[0]` then `ffts[1]`), at the very start, and no further
computation follows. -/
theorem f_draw_reference_order (ext : Ext SR OR SC OC) (h : ∀ c, ext.fails c = none)
    (a : App SR OR) :
    f_draw_mono ext a =
      ({ a with calls := a.calls ++
          spec_frame_mono (a.spectra.map Obj.addr) (a.oscilloscopes.map Obj.addr) }, none) ∧
    f_draw_stereo ext a =
      ({ a with calls := a.calls ++
          spec_frame_stereo (a.spectra.map Obj.addr) (a.oscilloscopes.map Obj.addr) }, none) ∧
    (∀ S O : List Nat,
      (spec_frame_mono S O).take 1 = [Call.calculate Ctx.fft Store.buffer] ∧
      ((spec_frame_mono S O).drop 1).filter Call.isCalculate = [] ∧
      (spec_frame_stereo S O).take 2
        = [Call.calculate Ctx.ffts0 Store.lbuffer, Call.calculate Ctx.ffts1 Store.rbuffer] ∧
      ((spec_frame_stereo S O).drop 2).filter Call.isCalculate = []) := by
  refine ⟨f_draw_mono_calls ext h a, f_draw_stereo_calls ext h a, ?_⟩
  intro S O
  refine ⟨rfl, ?_, rfl, ?_⟩
  · simp [spec_frame_mono, List.filter_eq_nil_iff, Call.isCalculate, List.mem_flatMap]
    rintro c x - (rfl | rfl) <;> rfl
  · simp [spec_frame_stereo, List.filter_eq_nil_iff, Call.isCalculate, List.mem_flatMap]
    rintro c x - (rfl | rfl) <;> rfl

/-- A frame of C4: two spectra and one oscilloscope, mono. -/
theorem f_draw_reference_order_witness :
    (f_draw_mono test_ext (test_app [1, 2] [7])).1.calls =
      [Call.calculate Ctx.fft Store.buffer,
       Call.update_buffer 7 [Store.buffer],
       Call.update_fft 1 [Ctx.fft], Call.draw_spectrum 1,
       Call.update_fft 2 [Ctx.fft], Call.draw_spectrum 2,
       Call.draw_oscilloscope 7] ∧
    (f_draw_stereo test_ext (test_app [1, 2] [7])).2 = none :=
  ⟨by decide,
   congrArg Prod.snd (f_draw_reference_order test_ext (fun _ => rfl) (test_app [1, 2] [7])).2.1⟩

theorem pairwise_true {α : Type} (l : List α) : List.Pairwise (fun _ _ => True) l := by
  induction l with
  | nil => exact List.Pairwise.nil
  | cons x l ih => exact List.Pairwise.cons (fun _ _ => trivial) ih

theorem spec_frame_mono_order (S O : List Nat) :
    precedes Call.isCalculate Call.isUpdate (spec_frame_mono S O) ∧
    precedes Call.isUpdateBuffer Call.isUpdateFft (spec_frame_mono S O) ∧
    precedes Call.isUpdate Call.isDrawOscilloscope (spec_frame_mono S O) ∧
    precedes Call.isUpdateBuffer Call.isDraw (spec_frame_mono S O) := by
  refine ⟨?_, ?_, ?_, ?_⟩
  · simp only [precedes, spec_frame_mono, List.pairwise_append, List.pairwise_map,
      List.pairwise_flatMap, Call.isCalculate, Call.isUpdate, Call.isUpdateBuffer,
      Call.isUpdateFft]
    simp [pairwise_true]
    rintro - - c x - (rfl | rfl) <;> rfl
  all_goals
    simp [precedes, spec_frame_mono, List.pairwise_append, List.pairwise_map,
      List.pairwise_flatMap, Call.isCalculate, Call.isUpdate, Call.isUpdateBuffer,
      Call.isUpdateFft, Call.isDraw, Call.isDrawOscilloscope, pairwise_true]

theorem spec_frame_stereo_order (S O : List Nat) :
    precedes Call.isCalculate Call.isUpdate (spec_frame_stereo S O) ∧
    precedes Call.isUpdateBuffer Call.isUpdateFft (spec_frame_stereo S O) ∧
    precedes Call.isUpdate Call.isDrawOscilloscope (spec_frame_stereo S O) ∧
    precedes Call.isUpdateBuffer Call.isDraw (spec_frame_stereo S O) := by
  refine ⟨?_, ?_, ?_, ?_⟩
  · simp only [precedes, spec_frame_stereo, List.pairwise_append, List.pairwise_map,
      List.pairwise_flatMap, Call.isCalculate, Call.isUpdate, Call.isUpdateBuffer,
      Call.isUpdateFft]
    simp [pairwise_true]
    rintro - - c x - (rfl | rfl) <;> rfl
  all_goals
    simp [precedes, spec_frame_stereo, List.pairwise_append, List.pairwise_map,
      List.pairwise_flatMap, Call.isCalculate, Call.isUpdate, Call.isUpdateBuffer,
      Call.isUpdateFft, Call.isDraw, Call.isDrawOscilloscope, pairwise_true]

theorem spectra_part_draw (ctxs : List Ctx) (S : List Nat) :
    ∀ (j s : Nat),
      (S.flatMap (fun s => [Call.update_fft s ctxs, Call.draw_spectrum s]))[j]?
        = some (Call.draw_spectrum s) →
      ∃ k, j = k + 1 ∧
        (S.flatMap (fun s => [Call.update_fft s ctxs, Call.draw_spectrum s]))[k]?
          = some (Call.update_fft s ctxs) := by
  induction S with
  | nil => intro j s h; simp at h
  | cons x S ih =>
    intro j s h
    simp only [List.flatMap_cons, List.cons_append, List.nil_append] at h ⊢
    match j, h with
    | 0, h => simp at h
    | 1, h =>
      simp only [List.getElem?_cons_succ, List.getElem?_cons_zero, Option.some.injEq,
        Call.draw_spectrum.injEq] at h
      exact ⟨0, rfl, by simp [h]⟩
    | j + 2, h =>
      simp only [List.getElem?_cons_succ] at h
      obtain ⟨k, hk, hget⟩ := ih j s h
      exact ⟨k + 2, by omega, by simpa using hget⟩

theorem middle_getElem? {α : Type} (A M B : List α) (d : α) (hA : d ∉ A) (hB : d ∉ B)
    (j : Nat) (h : (A ++ M ++ B)[j]? = some d) :
    ∃ i, j = A.length + i ∧ M[i]? = some d := by
  by_cases hj : j < A.length
  · rw [List.append_assoc, List.getElem?_append_left hj] at h
    exact absurd (List.mem_iff_getElem?.mpr ⟨j, h⟩) hA
  · rw [List.append_assoc, List.getElem?_append_right (by omega)] at h
    by_cases hm : j - A.length < M.length
    · rw [List.getElem?_append_left hm] at h
      exact ⟨j - A.length, by omega, h⟩
    · rw [List.getElem?_append_right (by omega)] at h
      exact absurd (List.mem_iff_getElem?.mpr ⟨_, h⟩) hB

theorem middle_getElem?_back {α : Type} (A M B : List α) (u : α) (i : Nat)
    (h : M[i]? = some u) : (A ++ M ++ B)[A.length + i]? = some u := by
  have hi : i < M.length := (List.getElem?_eq_some.mp h).1
  rw [List.append_assoc, List.getElem?_append_right (by omega),
    List.getElem?_append_left (by omega)]
  simpa using h

theorem frame_spectrum_draw (ctxs : List Ctx) (A : List Call) (S O : List Nat)
    (hA : ∀ s, Call.draw_spectrum s ∉ A) (j s : Nat)
    (h : (A ++ S.flatMap (fun s => [Call.update_fft s ctxs, Call.draw_spectrum s])
          ++ O.map (fun o => Call.draw_oscilloscope o))[j]? = some (Call.draw_spectrum s)) :
    ∃ k, j = k + 1 ∧
      (A ++ S.flatMap (fun s => [Call.update_fft s ctxs, Call.draw_spectrum s])
          ++ O.map (fun o => Call.draw_oscilloscope o))[k]? = some (Call.update_fft s ctxs) := by
  obtain ⟨i, hi, hget⟩ := middle_getElem? _ _ _ _ (hA s) (by simp) j h
  obtain ⟨k, hk, hupd⟩ := spectra_part_draw ctxs S i s hget
  exact ⟨A.length + k, by omega, middle_getElem?_back _ _ _ _ k hupd⟩

/-- C5, as the code has it.  In every frame whose collaborators do not throw,
in both branches: the analysis computations precede every renderer update;
every `update_buffer` precedes every `update_fft`; every `draw()` of an
oscilloscope comes after all updates; every `draw()` of any renderer comes
after all `update_buffer` calls; and the `draw()` of a spectrum is the call
right after the `update_fft` of that same spectrum. -/
theorem f_draw_order (ext : Ext SR OR SC OC) (h : ∀ c, ext.fails c = none)
    (a : App SR OR) :
    (precedes Call.isCalculate Call.isUpdate
        ((f_draw_mono ext a).1.calls.drop a.calls.length) ∧
      precedes Call.isUpdateBuffer Call.isUpdateFft
        ((f_draw_mono ext a).1.calls.drop a.calls.length) ∧
      precedes Call.isUpdate Call.isDrawOscilloscope
        ((f_draw_mono ext a).1.calls.drop a.calls.length) ∧
      precedes Call.isUpdateBuffer Call.isDraw
        ((f_draw_mono ext a).1.calls.drop a.calls.length) ∧
      ∀ j s, ((f_draw_mono ext a).1.calls.drop a.calls.length)[j]?
          = some (Call.draw_spectrum s) →
        ∃ k, j = k + 1 ∧ ((f_draw_mono ext a).1.calls.drop a.calls.length)[k]?
          = some (Call.update_fft s [Ctx.fft])) ∧
    (precedes Call.isCalculate Call.isUpdate
        ((f_draw_stereo ext a).1.calls.drop a.calls.length) ∧
      precedes Call.isUpdateBuffer Call.isUpdateFft
        ((f_draw_stereo ext a).1.calls.drop a.calls.length) ∧
      precedes Call.isUpdate Call.isDrawOscilloscope
        ((f_draw_stereo ext a).1.calls.drop a.calls.length) ∧
      precedes Call.isUpdateBuffer Call.isDraw
        ((f_draw_stereo ext a).1.calls.drop a.calls.length) ∧
      ∀ j s, ((f_draw_stereo ext a).1.calls.drop a.calls.length)[j]?
          = some (Call.draw_spectrum s) →
        ∃ k, j = k + 1 ∧ ((f_draw_stereo ext a).1.calls.drop a.calls.length)[k]?
          = some (Call.update_fft s [Ctx.ffts0, Ctx.ffts1])) := by
  rw [f_draw_mono_calls ext h, f_draw_stereo_calls ext h]
  simp only [List.drop_left]
  obtain ⟨m1, m2, m3, m4⟩ :=
    spec_frame_mono_order (a.spectra.map Obj.addr) (a.oscilloscopes.map Obj.addr)
  obtain ⟨s1, s2, s3, s4⟩ :=
    spec_frame_stereo_order (a.spectra.map Obj.addr) (a.oscilloscopes.map Obj.addr)
  refine ⟨⟨m1, m2, m3, m4, ?_⟩, ⟨s1, s2, s3, s4, ?_⟩⟩
  · intro j s hj
    exact frame_spectrum_draw [Ctx.fft] _ _ _ (by simp) j s hj
  · intro j s hj
    exact frame_spectrum_draw [Ctx.ffts0, Ctx.ffts1] _ _ _ (by simp) j s hj

/-- A frame of C5 with two spectra and one oscilloscope: the draw of spectrum
1 is call 3, right after its `update_fft`, call 2. -/
theorem f_draw_order_witness :
    (f_draw_mono test_ext (test_app [1, 2] [7])).1.calls.drop
        (test_app [1, 2] [7]).calls.length
      = [Call.calculate Ctx.fft Store.buffer,
         Call.update_buffer 7 [Store.buffer],
         Call.update_fft 1 [Ctx.fft], Call.draw_spectrum 1,
         Call.update_fft 2 [Ctx.fft], Call.draw_spectrum 2,
         Call.draw_oscilloscope 7] ∧
    ∃ k, 3 = k + 1 ∧
      ((f_draw_mono test_ext (test_app [1, 2] [7])).1.calls.drop
        (test_app [1, 2] [7]).calls.length)[k]? = some (Call.update_fft 1 [Ctx.fft]) :=
  ⟨by decide,
   (f_draw_order test_ext (fun _ => rfl) (test_app [1, 2] [7])).1.2.2.2.2 3 1 (by decide)⟩

/-- C5 as stated fails: with two spectra, the `draw()` of the first spectrum
is made before the `update_fft` of the second, so not every draw comes after
all updates of the frame. -/
theorem f_draw_order_counterexample :
    (∀ c, test_ext.fails c = none) ∧
    ¬ precedes Call.isUpdate Call.isDraw
        ((f_draw_mono test_ext (test_app [1, 2] [])).1.calls.drop
          (test_app [1, 2] []).calls.length) ∧
    ¬ precedes Call.isUpdate Call.isDraw
        ((f_draw_stereo test_ext (test_app [1, 2] [])).1.calls.drop
          (test_app [1, 2] []).calls.length) :=
  ⟨fun _ => rfl, by decide, by decide⟩

end Draw

/-! ## The reload trigger and the frame loop -/

section MainloopProps

variable {SC OC σ : Type}

/-- The key events that make `key_callback` set the flag. -/
theorem deliver_eq (n : Nat) (s : Loop SC OC σ) :
    deliver n s = { s with config_reload := s.config_reload || decide (0 < n) } := by
  induction n generalizing s with
  | zero => simp [deliver]
  | succ n ih => simp [deliver, ih, sighandler]

theorem poll_events_eq (keys : List (Int × Int)) (s : Loop SC OC σ) :
    poll_events keys s =
      { s with trace := s.trace ++ [Ev.poll_events],
               config_reload := s.config_reload ||
                 keys.any (fun k => decide (k.1 = GLFW_KEY_R ∧ k.2 = GLFW_PRESS)) } := by
  have hfold : ∀ (keys : List (Int × Int)) (s : Loop SC OC σ),
      keys.foldl (fun s k => key_callback k.1 k.2 s) s =
        { s with config_reload := s.config_reload ||
            keys.any (fun k => decide (k.1 = GLFW_KEY_R ∧ k.2 = GLFW_PRESS)) } := by
    intro keys
    induction keys with
    | nil => intro s; simp
    | cons k keys ih =>
      intro s
      rw [List.foldl_cons, ih]
      by_cases hk : k.1 = GLFW_KEY_R ∧ k.2 = GLFW_PRESS
      · simp [key_callback, hk]
      · simp only [key_callback, hk, if_false, List.any_cons, decide_False, Bool.false_or]
  rw [poll_events, hfold]

theorem reload_phase_clear (title : Config SC OC → String) (f_update : Config SC OC → Step σ)
    (fr : Frame SC OC) (s : Loop SC OC σ) (h : s.config_reload = false) :
    reload_phase title f_update fr s =
      ({ s with config_reload := decide (0 < fr.sig_after_test) }, none) := by
  simp [reload_phase, h, deliver_eq]

theorem reload_phase_set (title : Config SC OC → String) (f_update : Config SC OC → Step σ)
    (fr : Frame SC OC) (s : Loop SC OC σ) (h : s.config_reload = true) (cfg : Config SC OC)
    (hcfg : fr.reloaded = .ok cfg) :
    reload_phase title f_update fr s =
      ({ config := cfg, app := (f_update cfg s.app).1,
         config_reload := decide (0 < fr.sig_reload) || decide (0 < fr.sig_update),
         clock := s.clock + fr.reload_time,
         trace := s.trace ++ [Ev.print_reloading, Ev.clear_flag, Ev.reload,
           Ev.set_title (title cfg), Ev.f_update] }, (f_update cfg s.app).2) := by
  simp [reload_phase, h, deliver_eq, hcfg]

theorem reload_phase_failed (title : Config SC OC → String)
    (f_update : Config SC OC → Step σ) (fr : Frame SC OC) (s : Loop SC OC σ)
    (h : s.config_reload = true) (e : Exn) (hcfg : fr.reloaded = .error e) :
    reload_phase title f_update fr s =
      ({ s with config_reload := decide (0 < fr.sig_reload),
                trace := s.trace ++ [Ev.print_reloading, Ev.clear_flag, Ev.reload] },
        some e) := by
  simp [reload_phase, h, deliver_eq, hcfg]

theorem frame_phase_ok (f_draw : Config SC OC → Step σ) (fr : Frame SC OC)
    (s : Loop SC OC σ) (a : σ) (hfps : s.config.fps ≠ 0)
    (h : f_draw s.config s.app = (a, none)) :
    frame_phase f_draw fr s =
      ({ config := s.config, app := a,
         config_reload := s.config_reload || decide (0 < fr.sig_later) ||
           fr.keys.any (fun k => decide (k.1 = GLFW_KEY_R ∧ k.2 = GLFW_PRESS)),
         clock := max (s.clock + fr.work) (s.clock + (Int.tdiv 1000000 s.config.fps - 100)),
         trace := s.trace ++
           [Ev.deadline (s.clock + (Int.tdiv 1000000 s.config.fps - 100)), Ev.gl_clear,
            Ev.f_draw, Ev.swap_buffers, Ev.poll_events,
            Ev.sleep_until (s.clock + (Int.tdiv 1000000 s.config.fps - 100))] }, none) := by
  simp [frame_phase, deliver_eq, poll_events_eq, h, hfps]

theorem frame_phase_fault (f_draw : Config SC OC → Step σ) (fr : Frame SC OC)
    (s : Loop SC OC σ) (hfps : s.config.fps = 0) :
    frame_phase f_draw fr s = (s, some (Exn.fault "division by zero")) := by
  simp [frame_phase, hfps]

theorem frame_phase_raised (f_draw : Config SC OC → Step σ) (fr : Frame SC OC)
    (s : Loop SC OC σ) (hfps : s.config.fps ≠ 0) :
    (frame_phase f_draw fr s).2 = (f_draw s.config s.app).2 := by
  simp only [frame_phase, deliver_eq, hfps, if_false]
  rcases hd : f_draw s.config s.app with ⟨a, _ | e⟩ <;> simp [hd]

theorem reloads_append (t u : List Ev) : reloads (t ++ u) = reloads t + reloads u := by
  simp [reloads, List.count_append]

theorem reload_phase_reloads (title : Config SC OC → String)
    (f_update : Config SC OC → Step σ) (fr : Frame SC OC) (s : Loop SC OC σ) :
    reloads (reload_phase title f_update fr s).1.trace
      = reloads s.trace + (if s.config_reload then 1 else 0) := by
  rcases hflag : s.config_reload with _ | _
  · rw [reload_phase_clear title f_update fr s hflag]
    simp
  · rcases hcfg : fr.reloaded with e | cfg
    · rw [reload_phase_failed title f_update fr s hflag e hcfg]
      simp only [reloads_append]
      simp [reloads]
    · rw [reload_phase_set title f_update fr s hflag cfg hcfg]
      simp only [reloads_append]
      simp [reloads]

theorem frame_phase_reloads (f_draw : Config SC OC → Step σ) (fr : Frame SC OC)
    (s : Loop SC OC σ) :
    reloads (frame_phase f_draw fr s).1.trace = reloads s.trace := by
  by_cases hfps : s.config.fps = 0
  · rw [frame_phase_fault f_draw fr s hfps]
  · rcases hd : f_draw s.config s.app with ⟨a, _ | e⟩
    · rw [frame_phase_ok f_draw fr s a hfps hd]
      simp only [reloads_append]
      simp [reloads]
    · simp only [frame_phase, deliver_eq, hfps, if_false, hd, reloads_append]
      simp [reloads]

theorem iteration_reloads (title : Config SC OC → String)
    (f_update f_draw : Config SC OC → Step σ) (fr : Frame SC OC) (s : Loop SC OC σ) :
    reloads (iteration title f_update f_draw fr s).1.trace
      = reloads s.trace + (if s.config_reload then 1 else 0) := by
  have h := reload_phase_reloads title f_update fr s
  simp only [iteration, Step.andThen]
  rcases hr : reload_phase title f_update fr s with ⟨s1, _ | e⟩
  · rw [hr] at h
    simp only at h ⊢
    rw [frame_phase_reloads, h]
  · rw [hr] at h
    exact h

theorem iteration_flag (title : Config SC OC → String)
    (f_update f_draw : Config SC OC → Step σ) (fr : Frame SC OC) (s s2 : Loop SC OC σ)
    (hit : iteration title f_update f_draw fr s = (s2, none)) :
    s2.config_reload =
      ((if s.config_reload then decide (0 < fr.sig_reload) || decide (0 < fr.sig_update)
        else decide (0 < fr.sig_after_test)) || decide (0 < fr.sig_later) ||
        fr.keys.any (fun k => decide (k.1 = GLFW_KEY_R ∧ k.2 = GLFW_PRESS))) := by
  simp only [iteration, Step.andThen] at hit
  rcases hr : reload_phase title f_update fr s with ⟨s1, _ | e⟩
  · rw [hr] at hit
    simp only at hit
    have hs1 : s1.config_reload =
        (if s.config_reload then decide (0 < fr.sig_reload) || decide (0 < fr.sig_update)
          else decide (0 < fr.sig_after_test)) := by
      rcases hflag : s.config_reload with _ | _
      · rw [reload_phase_clear title f_update fr s hflag] at hr
        simp only [Prod.mk.injEq, and_true] at hr
        rw [← hr]
        simp
      · rcases hcfg : fr.reloaded with e | cfg
        · rw [reload_phase_failed title f_update fr s hflag e hcfg] at hr
          simp at hr
        · rw [reload_phase_set title f_update fr s hflag cfg hcfg] at hr
          simp only [Prod.mk.injEq] at hr
          rw [← hr.1]
          simp
    by_cases hfps : s1.config.fps = 0
    · rw [frame_phase_fault f_draw fr s1 hfps] at hit
      simp at hit
    · rcases hd : f_draw s1.config s1.app with ⟨a, _ | e⟩
      · rw [frame_phase_ok f_draw fr s1 a hfps hd] at hit
        simp only [Prod.mk.injEq, and_true] at hit
        rw [← hit, ← hs1]
      · have := frame_phase_raised f_draw fr s1 hfps
        rw [hit] at this
        simp [hd] at this
  · rw [hr] at hit
    simp at hit

/-- C3, as the code has it.  In an iteration of `mainloop`:
* when the test finds the flag clear, the reload step does nothing: no call,
  configuration and callback state unchanged;
* when the test finds the flag set, the flag is cleared by the store of line
  139, which comes before the call of `config.reload()`; when that call
  returns, the reload step is `config.reload()`, the new title, `f_update`,
  each once and in this order, and after it the flag is set exactly when
  `SIGUSR1` was delivered after the store, while `config.reload()`, the title
  or `f_update` ran; what was delivered between the test and the store is
  wiped;
* the frame step, with the call of `f_draw`, comes after the reload step;
* after an iteration that raised nothing the flag is set exactly when a
  producer set it after the point where this iteration cleared it or could
  have: a signal after the test of an iteration that does not reload, a
  signal after the store of line 139, or a press of R among the polled key
  events;
* every iteration calls `config.reload()` once when it finds the flag set and
  not at all otherwise, so the iteration after this one reloads exactly once
  when such a set was made, however many there were, and not at all when none
  was made;
* `key_callback` sets the flag for key R with action PRESS and otherwise
  leaves it as it is, `sighandler` sets it, and neither clears it. -/
theorem mainloop_reload_trigger (title : Config SC OC → String)
    (f_update f_draw : Config SC OC → Step σ) (fr : Frame SC OC) (s : Loop SC OC σ) :
    (s.config_reload = false →
      reload_phase title f_update fr s
        = ({ s with config_reload := decide (0 < fr.sig_after_test) }, none)) ∧
    (s.config_reload = true → ∀ cfg, fr.reloaded = .ok cfg →
      (reload_phase title f_update fr s).1.trace
        = s.trace ++ [Ev.print_reloading, Ev.clear_flag, Ev.reload,
            Ev.set_title (title cfg), Ev.f_update] ∧
      (reload_phase title f_update fr s).1.config = cfg ∧
      (reload_phase title f_update fr s).1.app = (f_update cfg s.app).1 ∧
      (reload_phase title f_update fr s).2 = (f_update cfg s.app).2 ∧
      (reload_phase title f_update fr s).1.config_reload
        = (decide (0 < fr.sig_reload) || decide (0 < fr.sig_update))) ∧
    (s.config_reload = true → ∀ e, fr.reloaded = .error e →
      (reload_phase title f_update fr s).1.trace
        = s.trace ++ [Ev.print_reloading, Ev.clear_flag, Ev.reload] ∧
      (reload_phase title f_update fr s).2 = some e ∧
      (reload_phase title f_update fr s).1.config_reload = decide (0 < fr.sig_reload)) ∧
    (∀ s1 a, s1.config.fps ≠ 0 → f_draw s1.config s1.app = (a, none) →
      (frame_phase f_draw fr s1).1.trace = s1.trace ++
        [Ev.deadline (s1.clock + (Int.tdiv 1000000 s1.config.fps - 100)), Ev.gl_clear,
         Ev.f_draw, Ev.swap_buffers, Ev.poll_events,
         Ev.sleep_until (s1.clock + (Int.tdiv 1000000 s1.config.fps - 100))]) ∧
    (∀ s2, iteration title f_update f_draw fr s = (s2, none) →
      s2.config_reload =
        ((if s.config_reload then decide (0 < fr.sig_reload) || decide (0 < fr.sig_update)
          else decide (0 < fr.sig_after_test)) || decide (0 < fr.sig_later) ||
          fr.keys.any (fun k => decide (k.1 = GLFW_KEY_R ∧ k.2 = GLFW_PRESS)))) ∧
    reloads (iteration title f_update f_draw fr s).1.trace
      = reloads s.trace + (if s.config_reload then 1 else 0) ∧
    (∀ s2 next, iteration title f_update f_draw fr s = (s2, none) →
      reloads (iteration title f_update f_draw next s2).1.trace
        = reloads s2.trace +
          (if ((if s.config_reload then
                  decide (0 < fr.sig_reload) || decide (0 < fr.sig_update)
                else decide (0 < fr.sig_after_test)) || decide (0 < fr.sig_later) ||
                fr.keys.any (fun k => decide (k.1 = GLFW_KEY_R ∧ k.2 = GLFW_PRESS))) = true
            then 1 else 0)) ∧
    (∀ key action,
      (key_callback key action s).config_reload
        = (s.config_reload || decide (key = GLFW_KEY_R ∧ action = GLFW_PRESS))) ∧
    (sighandler s).config_reload = true := by
  refine ⟨fun h => reload_phase_clear title f_update fr s h, ?_, ?_, ?_,
    fun s2 hit => iteration_flag title f_update f_draw fr s s2 hit,
    iteration_reloads title f_update f_draw fr s, ?_, ?_, rfl⟩
  · intro h cfg hcfg
    rw [reload_phase_set title f_update fr s h cfg hcfg]
    exact ⟨rfl, rfl, rfl, rfl, rfl⟩
  · intro h e hcfg
    rw [reload_phase_failed title f_update fr s h e hcfg]
    exact ⟨rfl, rfl, rfl⟩
  · intro s1 a hfps ha
    rw [frame_phase_ok f_draw fr s1 a hfps ha]
  · intro s2 next hit
    rw [iteration_reloads title f_update f_draw next s2,
      iteration_flag title f_update f_draw fr s s2 hit]
  · intro key action
    by_cases hk : key = GLFW_KEY_R ∧ action = GLFW_PRESS
    · simp [key_callback, hk]
    · simp only [key_callback, hk, if_false, decide_False, Bool.or_false]

/-- C8. Frame pacing, in microseconds.  In an iteration whose reload step
raised nothing and left the state `s1`, with `1 ≤ fps` for the configuration
loaded then and a draw callback that does not throw: the deadline is taken
after the reload step and before `glClear`, `f_draw`, `glfwSwapBuffers` and
`glfwPollEvents`, as the clock reading plus `1000000 / fps - 100` in
truncating integer division; the time from there to the end of the iteration
is the larger of the duration `work` of these four and `1000000 / fps - 100`,
so it is never less than `work`; the iteration draws once; and for
`fps = 60` and `work` below the budget it is exactly 16566. -/
theorem mainloop_frame_pacing (title : Config SC OC → String)
    (f_update f_draw : Config SC OC → Step σ) (fr : Frame SC OC) (s s1 : Loop SC OC σ) (a : σ)
    (hreload : reload_phase title f_update fr s = (s1, none))
    (hdraw : f_draw s1.config s1.app = (a, none))
    (hfps : 1 ≤ s1.config.fps) :
    (iteration title f_update f_draw fr s).2 = none ∧
    Int.tdiv 1000000 s1.config.fps = 1000000 / s1.config.fps ∧
    (iteration title f_update f_draw fr s).1.trace = s1.trace ++
      [Ev.deadline (s1.clock + (1000000 / s1.config.fps - 100)), Ev.gl_clear, Ev.f_draw,
       Ev.swap_buffers, Ev.poll_events,
       Ev.sleep_until (s1.clock + (1000000 / s1.config.fps - 100))] ∧
    (iteration title f_update f_draw fr s).1.clock - s1.clock
      = max (fr.work : Int) (1000000 / s1.config.fps - 100) ∧
    (fr.work : Int) ≤ (iteration title f_update f_draw fr s).1.clock - s1.clock ∧
    (s1.config.fps = 60 → fr.work < 16566 →
      (iteration title f_update f_draw fr s).1.clock - s1.clock = 16566) := by
  have hdiv : Int.tdiv 1000000 s1.config.fps = 1000000 / s1.config.fps :=
    Int.tdiv_eq_ediv (by decide) (by omega)
  have hit : iteration title f_update f_draw fr s = frame_phase f_draw fr s1 := by
    simp only [iteration, Step.andThen, hreload]
  rw [hit, frame_phase_ok f_draw fr s1 a (by omega) hdraw, hdiv]
  have hclock : max (s1.clock + (fr.work : Int)) (s1.clock + (1000000 / s1.config.fps - 100))
      - s1.clock = max (fr.work : Int) (1000000 / s1.config.fps - 100) := by
    rcases le_total (fr.work : Int) (1000000 / s1.config.fps - 100) with h | h
    · rw [max_eq_right h, max_eq_right (by omega)]; omega
    · rw [max_eq_left h, max_eq_left (by omega)]; omega
  refine ⟨rfl, rfl, rfl, hclock, ?_, ?_⟩
  · simp only [hclock]
    exact le_max_left _ _
  · intro h60 hw
    simp only [hclock, h60]
    have h : (1000000 : Int) / 60 - 100 = 16566 := by decide
    rw [h, max_eq_right (by omega)]
    omega

end MainloopProps

/-- A frame of C8 with the callbacks of `main`: 60 frames per second and work
of 4000 microseconds give a period of exactly 16566 microseconds. -/
theorem mainloop_frame_pacing_witness :
    (1 : Int) ≤ (test_loop false).config.fps ∧
    (4000 : Nat) < 16566 ∧
    (iteration (generate_title test_ext) (f_update test_ext false) (f_draw test_ext false)
        (test_frame 0 0 [] 4000) (test_loop false)).1.clock - (test_loop false).clock
      = 16566 :=
  ⟨by decide, by decide,
   (mainloop_frame_pacing (generate_title test_ext) (f_update test_ext false)
      (f_draw test_ext false) (test_frame 0 0 [] 4000) (test_loop false) (test_loop false)
      (f_draw test_ext false test_config (test_app [0, 1] [2])).1
      rfl (by decide!) (by decide)).2.2.2.2.2 rfl (by decide)⟩

/-- C3 as stated fails.  The flag is set when iteration 1 tests it, and
`SIGUSR1` is delivered once more after that test, before the store of line
139.  The store wipes this set: iteration 1 ends with the flag clear and
iteration 2 does not reload, so the run has one reload, not two. -/
theorem mainloop_reload_trigger_counterexample :
    (test_loop true).config_reload = true ∧
    0 < (test_frame 1 0 [] 0).sig_after_test ∧
    (iteration (generate_title test_ext) (f_update test_ext false) (f_draw test_ext false)
        (test_frame 1 0 [] 0) (test_loop true)).1.config_reload = false ∧
    reloads ((mainloop (generate_title test_ext) (f_update test_ext false)
        (f_draw test_ext false) [test_frame 1 0 [] 0, test_frame 0 0 [] 0]
        (test_loop true)).1.trace) = 1 :=
  ⟨rfl, by decide, by decide!, by decide!⟩

/-- Runs of C3 with the callbacks of `main`.  Three signals and a press of R
after the store of one iteration coalesce: the next iteration reloads once,
the one after it not at all.  Signals delivered while `config.reload()` and
`f_update` run, after the store, are kept: the iteration that reloads leaves
the flag set, the next iteration reloads again, the third does not. -/
theorem mainloop_reload_trigger_witness :
    reloads ((mainloop (generate_title test_ext) (f_update test_ext false)
        (f_draw test_ext false)
        [test_frame 0 3 [(GLFW_KEY_R, GLFW_PRESS)] 0, test_frame 0 0 [] 0, test_frame 0 0 [] 0]
        (test_loop false)).1.trace) = 1 ∧
    reloads ((mainloop (generate_title test_ext) (f_update test_ext false)
        (f_draw test_ext false)
        [test_signal_frame, test_frame 0 0 [] 0, test_frame 0 0 [] 0]
        (test_loop true)).1.trace) = 2 ∧
    (reload_phase (generate_title test_ext) (f_update test_ext false) test_signal_frame
        (test_loop true)).1.config_reload
      = (decide (0 < test_signal_frame.sig_reload)
          || decide (0 < test_signal_frame.sig_update)) ∧
    (decide (0 < test_signal_frame.sig_reload)
      || decide (0 < test_signal_frame.sig_update)) = true :=
  ⟨by decide!, by decide!,
   ((mainloop_reload_trigger (generate_title test_ext) (f_update test_ext false)
      (f_draw test_ext false) test_signal_frame (test_loop true)).2.1 rfl
        test_config rfl).2.2.2.2,
   by decide⟩

/-! ## The program -/

section MainProps

variable {SR OR SC OC : Type}

theorem update_total_length {R C : Type} (cfg : R → C → R) (ctor : C → Nat → R)
    (cs : List C) (s : Rec R C) :
    (update_render_configs (total2 cfg) (total2 ctor) cs s).2 = none ∧
    (update_render_configs (total2 cfg) (total2 ctor) cs s).1.renderer.length = cs.length := by
  rw [update_total]
  refine ⟨rfl, ?_⟩
  simp only [List.length_append, List.length_zipWith, fresh_length, List.length_drop]
  omega

theorem reconcile_spectra_total (ext : Ext SR OR SC OC) (fs : SR → SC → SR)
    (gs : SC → Nat → SR) (h1 : ext.spec_configure = total2 fs) (h2 : ext.spec_ctor = total2 gs)
    (config : Config SC OC) (a : App SR OR) :
    (reconcile_spectra ext config a).2 = none ∧
    (reconcile_spectra ext config a).1.spectra.length = config.spectra.length ∧
    (reconcile_spectra ext config a).1.oscilloscopes = a.oscilloscopes := by
  have h := update_total_length fs gs config.spectra
    { renderer := a.spectra, next := a.next, log := [] }
  simp only [reconcile_spectra, h1, h2]
  exact ⟨h.1, h.2, trivial⟩

theorem reconcile_oscilloscopes_total (ext : Ext SR OR SC OC) (fo : OR → OC → OR)
    (go : OC → Nat → OR) (h1 : ext.osc_configure = total2 fo) (h2 : ext.osc_ctor = total2 go)
    (config : Config SC OC) (a : App SR OR) :
    (reconcile_oscilloscopes ext config a).2 = none ∧
    (reconcile_oscilloscopes ext config a).1.oscilloscopes.length
      = config.oscilloscopes.length ∧
    (reconcile_oscilloscopes ext config a).1.spectra = a.spectra := by
  have h := update_total_length fo go config.oscilloscopes
    { renderer := a.oscilloscopes, next := a.next, log := [] }
  simp only [reconcile_oscilloscopes, h1, h2]
  exact ⟨h.1, h.2, trivial⟩

theorem keeps_andThen (x y : Step (App SR OR)) (hx : keeps_lists x) (hy : keeps_lists y) :
    keeps_lists (Step.andThen x y) := by
  intro a
  obtain ⟨x1, x2⟩ := hx a
  rcases h : x a with ⟨a1, _ | e⟩
  · rw [h] at x1 x2
    obtain ⟨y1, y2⟩ := hy a1
    simp only [Step.andThen, h]
    exact ⟨y1.trans x1, y2.trans x2⟩
  · rw [h] at x1 x2
    simp only [Step.andThen, h]
    exact ⟨x1, x2⟩

theorem keeps_forEach {α : Type} (body : α → Step (App SR OR)) (h : ∀ x, keeps_lists (body x))
    (xs : List α) : keeps_lists (Step.forEach body xs) := by
  induction xs with
  | nil => intro a; exact ⟨rfl, rfl⟩
  | cons x xs ih => exact keeps_andThen _ _ (h x) ih

theorem keeps_call (ext : Ext SR OR SC OC) (c : Call) : keeps_lists (call ext c) :=
  fun _ => ⟨rfl, rfl⟩

theorem keeps_f_draw (ext : Ext SR OR SC OC) (stereo : Bool) (config : Config SC OC) :
    keeps_lists (f_draw ext stereo config) := by
  intro a
  cases stereo
  · exact keeps_andThen _ _ (keeps_call ext _)
      (keeps_andThen _ _ (keeps_forEach _ (fun _ => keeps_call ext _) _)
        (keeps_andThen _ _
          (keeps_forEach _ (fun _ => keeps_andThen _ _ (keeps_call ext _) (keeps_call ext _)) _)
          (keeps_forEach _ (fun _ => keeps_call ext _) _))) a
  · exact keeps_andThen _ _ (keeps_call ext _)
      (keeps_andThen _ _ (keeps_call ext _)
        (keeps_andThen _ _ (keeps_forEach _ (fun _ => keeps_call ext _) _)
          (keeps_andThen _ _
            (keeps_forEach _
              (fun _ => keeps_andThen _ _ (keeps_call ext _) (keeps_call ext _)) _)
            (keeps_forEach _ (fun _ => keeps_call ext _) _)))) a

theorem reconcile_pair (ext : Ext SR OR SC OC) (fs : SR → SC → SR) (gs : SC → Nat → SR)
    (fo : OR → OC → OR) (go : OC → Nat → OR)
    (h1 : ext.spec_configure = total2 fs) (h2 : ext.spec_ctor = total2 gs)
    (h3 : ext.osc_configure = total2 fo) (h4 : ext.osc_ctor = total2 go)
    (config : Config SC OC) (a : App SR OR) :
    (Step.andThen (reconcile_spectra ext config) (reconcile_oscilloscopes ext config) a).2
      = none ∧
    (Step.andThen (reconcile_spectra ext config)
      (reconcile_oscilloscopes ext config) a).1.spectra.length = config.spectra.length ∧
    (Step.andThen (reconcile_spectra ext config)
      (reconcile_oscilloscopes ext config) a).1.oscilloscopes.length
        = config.oscilloscopes.length := by
  obtain ⟨s1, s2, -⟩ := reconcile_spectra_total ext fs gs h1 h2 config a
  obtain ⟨o1, o2, o3⟩ := reconcile_oscilloscopes_total ext fo go h3 h4 config
    (reconcile_spectra ext config a).1
  rcases hs : reconcile_spectra ext config a with ⟨a1, e1⟩
  rw [hs] at s1 s2 o1 o2 o3
  simp only at s1 s2 o1 o2 o3
  subst s1
  simp only [Step.andThen, hs]
  exact ⟨o1, o3 ▸ s2, o2⟩

theorem andThen_assoc {σ : Type} (x y z : Step σ) :
    Step.andThen x (Step.andThen y z) = Step.andThen (Step.andThen x y) z := by
  funext s
  simp only [Step.andThen]
  rcases x s with ⟨s1, _ | e⟩ <;> rfl

theorem andThen_of_ok {σ : Type} (x z : Step σ) (a a1 : σ) (h : x a = (a1, none)) :
    Step.andThen x z a = z a1 := by
  simp only [Step.andThen, h]

theorem f_update_lists (ext : Ext SR OR SC OC) (fs : SR → SC → SR) (gs : SC → Nat → SR)
    (fo : OR → OC → OR) (go : OC → Nat → OR)
    (h1 : ext.spec_configure = total2 fs) (h2 : ext.spec_ctor = total2 gs)
    (h3 : ext.osc_configure = total2 fo) (h4 : ext.osc_ctor = total2 go)
    (stereo : Bool) (config : Config SC OC) (a : App SR OR)
    (hok : (f_update ext stereo config a).2 = none) :
    (f_update ext stereo config a).1.spectra.length = config.spectra.length ∧
    (f_update ext stereo config a).1.oscilloscopes.length = config.oscilloscopes.length := by
  have key : ∀ a : App SR OR,
      (Step.andThen (reconcile_spectra ext config)
        (Step.andThen (reconcile_oscilloscopes ext config)
          (set_bg_color config.bg_color)) a).1.spectra.length = config.spectra.length ∧
      (Step.andThen (reconcile_spectra ext config)
        (Step.andThen (reconcile_oscilloscopes ext config)
          (set_bg_color config.bg_color)) a).1.oscilloscopes.length
            = config.oscilloscopes.length := by
    intro a
    obtain ⟨p1, p2, p3⟩ := reconcile_pair ext fs gs fo go h1 h2 h3 h4 config a
    rw [andThen_assoc]
    rcases hp : Step.andThen (reconcile_spectra ext config)
      (reconcile_oscilloscopes ext config) a with ⟨a1, e1⟩
    rw [hp] at p1 p2 p3
    simp only at p1 p2 p3
    subst p1
    rw [andThen_of_ok _ _ a a1 hp]
    exact ⟨p2, p3⟩
  cases stereo
  · simp only [f_update, Bool.false_eq_true, if_false, f_update_mono] at hok ⊢
    rcases hr : resize_store ext Store.buffer config.buf_size a with ⟨a1, _ | e⟩
    · simp only [Step.andThen, hr]
      exact key a1
    · simp [Step.andThen, hr] at hok
  · simp only [f_update, if_true, f_update_stereo] at hok ⊢
    rcases hr : resize_store ext Store.lbuffer config.buf_size a with ⟨a1, _ | e⟩
    · rcases hr2 : resize_store ext Store.rbuffer config.buf_size a1 with ⟨a2, _ | e⟩
      · simp only [Step.andThen, hr, hr2]
        exact key a2
      · simp [Step.andThen, hr, hr2] at hok
    · simp [Step.andThen, hr] at hok

theorem frame_phase_lists (ext : Ext SR OR SC OC) (stereo : Bool) (fr : Frame SC OC)
    (s : Loop SC OC (App SR OR)) (h : lists_match s) :
    lists_match (frame_phase (f_draw ext stereo) fr s).1 := by
  by_cases hfps : s.config.fps = 0
  · rw [frame_phase_fault _ fr s hfps]
    exact h
  · obtain ⟨k1, k2⟩ := keeps_f_draw ext stereo s.config s.app
    rcases hd : f_draw ext stereo s.config s.app with ⟨a, _ | e⟩
    · rw [hd] at k1 k2
      rw [frame_phase_ok _ fr s a hfps hd]
      simp only at k1 k2
      exact ⟨(congrArg List.length k1).trans h.1, (congrArg List.length k2).trans h.2⟩
    · rw [hd] at k1 k2
      simp only [frame_phase, deliver_eq, hd, hfps, if_false]
      simp only at k1 k2
      exact ⟨(congrArg List.length k1).trans h.1, (congrArg List.length k2).trans h.2⟩

theorem reload_phase_lists (ext : Ext SR OR SC OC) (fs : SR → SC → SR) (gs : SC → Nat → SR)
    (fo : OR → OC → OR) (go : OC → Nat → OR)
    (h1 : ext.spec_configure = total2 fs) (h2 : ext.spec_ctor = total2 gs)
    (h3 : ext.osc_configure = total2 fo) (h4 : ext.osc_ctor = total2 go)
    (stereo : Bool) (fr : Frame SC OC) (s s1 : Loop SC OC (App SR OR)) (h : lists_match s)
    (hr : reload_phase (generate_title ext) (f_update ext stereo) fr s = (s1, none)) :
    lists_match s1 := by
  rcases hflag : s.config_reload with _ | _
  · rw [reload_phase_clear _ _ fr s hflag] at hr
    simp only [Prod.mk.injEq, and_true] at hr
    rw [← hr]
    exact h
  · rcases hcfg : fr.reloaded with e | cfg
    · simp [reload_phase, hflag, hcfg] at hr
    · rw [reload_phase_set _ _ fr s hflag cfg hcfg] at hr
      simp only [Prod.mk.injEq] at hr
      obtain ⟨hs1, hok⟩ := hr
      rw [← hs1]
      exact f_update_lists ext fs gs fo go h1 h2 h3 h4 stereo cfg s.app hok

theorem draw_states_lists (ext : Ext SR OR SC OC) (fs : SR → SC → SR) (gs : SC → Nat → SR)
    (fo : OR → OC → OR) (go : OC → Nat → OR)
    (h1 : ext.spec_configure = total2 fs) (h2 : ext.spec_ctor = total2 gs)
    (h3 : ext.osc_configure = total2 fo) (h4 : ext.osc_ctor = total2 go)
    (stereo : Bool) (frames : List (Frame SC OC)) :
    ∀ s : Loop SC OC (App SR OR), lists_match s →
      ∀ st ∈ draw_states (generate_title ext) (f_update ext stereo) (f_draw ext stereo)
        frames s, lists_match st := by
  induction frames with
  | nil => intro s _ st hst; simp [draw_states] at hst
  | cons fr frs ih =>
    intro s hs st hst
    simp only [draw_states] at hst
    rcases hr : reload_phase (generate_title ext) (f_update ext stereo) fr s with ⟨s1, _ | e⟩
    · rw [hr] at hst
      have hs1 := reload_phase_lists ext fs gs fo go h1 h2 h3 h4 stereo fr s s1 hs hr
      have hs2 := frame_phase_lists ext stereo fr s1 hs1
      simp only [List.mem_cons] at hst
      rcases hst with rfl | hst
      · exact hs1
      · rcases hf : frame_phase (f_draw ext stereo) fr s1 with ⟨s2, _ | e⟩
        · rw [hf] at hst hs2
          simp only at hst
          by_cases hc : fr.should_close = 0
          · rw [if_pos hc] at hst
            exact ih s2 hs2 st hst
          · rw [if_neg hc] at hst
            simp at hst
        · rw [hf] at hst
          simp at hst
    · rw [hr] at hst
      simp at hst

theorem startup_thread_lists (ext : Ext SR OR SC OC) (fs : SR → SC → SR) (gs : SC → Nat → SR)
    (fo : OR → OC → OR) (go : OC → Nat → OR)
    (h1 : ext.spec_configure = total2 fs) (h2 : ext.spec_ctor = total2 gs)
    (h3 : ext.osc_configure = total2 fo) (h4 : ext.osc_ctor = total2 go)
    (setup : Setup SC OC) (s : Loop SC OC (App SR OR))
    (h : startup_thread ext setup = .ok s) :
    lists_match s := by
  simp only [startup_thread] at h
  rcases hc : setup.config with e | config
  · simp [hc] at h
  · rcases hi : setup.input with _ | e
    · by_cases hg : setup.glfw_init = true
      · by_cases hw : setup.window = true
        · simp only [hc, hi, hg, hw, Bool.not_true, Bool.false_eq_true, if_false] at h
          rw [andThen_of_ok (set_bg_color config.bg_color) _ _ _ rfl] at h
          obtain ⟨p1, p2, p3⟩ := reconcile_pair ext fs gs fo go h1 h2 h3 h4 config
            { spectra := [], oscilloscopes := [], next := 0, stores := [],
              clear_color := { r := config.bg_color.r, g := config.bg_color.g,
                               b := config.bg_color.b, a := 0 }, calls := [] }
          revert h p1 p2 p3
          generalize Step.andThen (reconcile_spectra ext config)
            (reconcile_oscilloscopes ext config) _ = r
          rcases r with ⟨a1, _ | e⟩
          · intro h p1 p2 p3
            rcases hst : setup.buffer with _ | e
            · rcases hth : setup.thread with _ | e
              · simp only [hst, hth, Except.ok.injEq] at h
                rw [← h, deliver_eq]
                exact ⟨p2, p3⟩
              · simp [hst, hth] at h
            · simp [hst] at h
          · intro h p1
            simp at p1
        · simp [hc, hi, hg, hw] at h
      · simp [hc, hi, hg] at h
    · simp [hc, hi] at h

theorem startup_ok (ext : Ext SR OR SC OC) (setup : Setup SC OC)
    (s : Loop SC OC (App SR OR)) :
    startup ext setup = .ok s ↔ startup_thread ext setup = .ok s ∧ setup.fft = none := by
  simp only [startup]
  rcases startup_thread ext setup with e | t
  · simp
  · rcases setup.fft with _ | e <;> simp

theorem startup_lists (ext : Ext SR OR SC OC) (fs : SR → SC → SR) (gs : SC → Nat → SR)
    (fo : OR → OC → OR) (go : OC → Nat → OR)
    (h1 : ext.spec_configure = total2 fs) (h2 : ext.spec_ctor = total2 gs)
    (h3 : ext.osc_configure = total2 fo) (h4 : ext.osc_ctor = total2 go)
    (setup : Setup SC OC) (s : Loop SC OC (App SR OR)) (h : startup ext setup = .ok s) :
    lists_match s :=
  startup_thread_lists ext fs gs fo go h1 h2 h3 h4 setup s ((startup_ok ext setup s).mp h).1

/-- C7. When `configure` and the constructors of both renderer classes do not
throw, then in every state in which the draw callback is entered during a run
of `main`, first frame and every later one, mono or stereo, the vector
`spectra` is as long as the current `config.spectra` and the vector
`oscilloscopes` as long as the current `config.oscilloscopes`. -/
theorem main_renderer_lists (ext : Ext SR OR SC OC) (fs : SR → SC → SR) (gs : SC → Nat → SR)
    (fo : OR → OC → OR) (go : OC → Nat → OR)
    (h1 : ext.spec_configure = total2 fs) (h2 : ext.spec_ctor = total2 gs)
    (h3 : ext.osc_configure = total2 fo) (h4 : ext.osc_ctor = total2 go)
    (setup : Setup SC OC) (frames : List (Frame SC OC)) :
    ∀ st ∈ main_draw_states ext setup frames,
      st.app.spectra.length = st.config.spectra.length ∧
      st.app.oscilloscopes.length = st.config.oscilloscopes.length := by
  intro st hst
  simp only [main_draw_states] at hst
  rcases hs : startup ext setup with e | s
  · simp [hs] at hst
  · rw [hs] at hst
    exact draw_states_lists ext fs gs fo go h1 h2 h3 h4 s.config.stereo frames s
      (startup_lists ext fs gs fo go h1 h2 h3 h4 setup s hs) st hst

/-! ### The outcome of `main` -/

theorem mainloop_closed_iff {σ : Type} (title : Config SC OC → String)
    (f_update f_draw : Config SC OC → Step σ) (frames : List (Frame SC OC)) :
    ∀ s : Loop SC OC σ,
      (mainloop title f_update f_draw frames s).2 = Ended.closed ↔
        ∃ pre fr post s1 s2, frames = pre ++ fr :: post ∧
          mainloop title f_update f_draw pre s = (s1, Ended.running) ∧
          iteration title f_update f_draw fr s1 = (s2, none) ∧ fr.should_close ≠ 0 := by
  induction frames with
  | nil =>
    intro s
    simp [mainloop]
  | cons fr frs ih =>
    intro s
    constructor
    · intro h
      simp only [mainloop] at h
      rcases hi : iteration title f_update f_draw fr s with ⟨s1, _ | e⟩
      · rw [hi] at h
        simp only at h
        by_cases hc : fr.should_close = 0
        · rw [if_pos hc] at h
          obtain ⟨pre, fr', post, t1, t2, hfr, hpre, hit, hcl⟩ := (ih s1).mp h
          refine ⟨fr :: pre, fr', post, t1, t2, by simp [hfr], ?_, hit, hcl⟩
          simp only [mainloop, hi, if_pos hc, hpre]
        · exact ⟨[], fr, frs, s, s1, rfl, rfl, hi, hc⟩
      · rw [hi] at h
        simp at h
    · rintro ⟨pre, fr', post, t1, t2, hfr, hpre, hit, hcl⟩
      cases pre with
      | nil =>
        simp only [List.nil_append, List.cons.injEq] at hfr
        obtain ⟨rfl, rfl⟩ := hfr
        simp only [mainloop, Prod.mk.injEq] at hpre
        obtain ⟨rfl, -⟩ := hpre
        simp only [mainloop, hit, if_neg hcl]
      | cons p pre =>
        simp only [List.cons_append, List.cons.injEq] at hfr
        obtain ⟨rfl, rfl⟩ := hfr
        simp only [mainloop] at hpre ⊢
        rcases hi : iteration title f_update f_draw fr s with ⟨s1, _ | e⟩
        · rw [hi] at hpre
          simp only at hpre ⊢
          by_cases hc : fr.should_close = 0
          · rw [if_pos hc] at hpre ⊢
            exact (ih s1).mpr ⟨pre, fr', post, t1, t2, rfl, hpre, hit, hcl⟩
          · rw [if_neg hc] at hpre
            simp at hpre
        · rw [hi] at hpre
          simp at hpre

theorem mainloop_raised_iff {σ : Type} (title : Config SC OC → String)
    (f_update f_draw : Config SC OC → Step σ) (frames : List (Frame SC OC)) (e : Exn) :
    ∀ s : Loop SC OC σ,
      (mainloop title f_update f_draw frames s).2 = Ended.raised e ↔
        ∃ pre fr post s1, frames = pre ++ fr :: post ∧
          mainloop title f_update f_draw pre s = (s1, Ended.running) ∧
          (iteration title f_update f_draw fr s1).2 = some e := by
  induction frames with
  | nil =>
    intro s
    simp [mainloop]
  | cons fr frs ih =>
    intro s
    constructor
    · intro h
      simp only [mainloop] at h
      rcases hi : iteration title f_update f_draw fr s with ⟨s1, _ | e'⟩
      · rw [hi] at h
        simp only at h
        by_cases hc : fr.should_close = 0
        · rw [if_pos hc] at h
          obtain ⟨pre, fr', post, t1, hfr, hpre, hit⟩ := (ih s1).mp h
          refine ⟨fr :: pre, fr', post, t1, by simp [hfr], ?_, hit⟩
          simp only [mainloop, hi, if_pos hc, hpre]
        · rw [if_neg hc] at h
          simp at h
      · rw [hi] at h
        simp only [Ended.raised.injEq] at h
        exact ⟨[], fr, frs, s, rfl, rfl, by rw [hi, h]⟩
    · rintro ⟨pre, fr', post, t1, hfr, hpre, hit⟩
      cases pre with
      | nil =>
        simp only [List.nil_append, List.cons.injEq] at hfr
        obtain ⟨rfl, rfl⟩ := hfr
        simp only [mainloop, Prod.mk.injEq] at hpre
        obtain ⟨rfl, -⟩ := hpre
        rcases hi : iteration title f_update f_draw fr s with ⟨s1, _ | e'⟩
        · rw [hi] at hit
          simp at hit
        · rw [hi] at hit
          simp only [Option.some.injEq] at hit
          simp only [mainloop, hi, hit]
      | cons p pre =>
        simp only [List.cons_append, List.cons.injEq] at hfr
        obtain ⟨rfl, rfl⟩ := hfr
        simp only [mainloop] at hpre ⊢
        rcases hi : iteration title f_update f_draw fr s with ⟨s1, _ | e'⟩
        · rw [hi] at hpre
          simp only at hpre ⊢
          by_cases hc : fr.should_close = 0
          · rw [if_pos hc] at hpre ⊢
            exact (ih s1).mpr ⟨pre, fr', post, t1, rfl, hpre, hit⟩
          · rw [if_neg hc] at hpre
            simp at hpre
        · rw [hi] at hpre
          simp at hpre

/-- An iteration raises exactly what `config.reload()`, `f_update` or `f_draw`
raise, or ends in the fault of line 150: `mainloop` has no handler. -/
theorem iteration_raised_iff {σ : Type} (title : Config SC OC → String)
    (f_update f_draw : Config SC OC → Step σ) (fr : Frame SC OC) (s : Loop SC OC σ) (e : Exn) :
    (iteration title f_update f_draw fr s).2 = some e ↔
      (s.config_reload = true ∧
        (fr.reloaded = .error e ∨
          ∃ cfg, fr.reloaded = .ok cfg ∧ (f_update cfg s.app).2 = some e)) ∨
      (∃ s1, reload_phase title f_update fr s = (s1, none) ∧
        ((s1.config.fps = 0 ∧ e = Exn.fault "division by zero") ∨
         (s1.config.fps ≠ 0 ∧ (f_draw s1.config s1.app).2 = some e))) := by
  simp only [iteration, Step.andThen]
  rcases hr : reload_phase title f_update fr s with ⟨s1, _ | e'⟩
  · have hframe : (frame_phase f_draw fr s1).2 = some e ↔
        ((s1.config.fps = 0 ∧ e = Exn.fault "division by zero") ∨
         (s1.config.fps ≠ 0 ∧ (f_draw s1.config s1.app).2 = some e)) := by
      by_cases hfps : s1.config.fps = 0
      · rw [frame_phase_fault f_draw fr s1 hfps]
        simp only [Option.some.injEq, hfps, true_and, ne_eq, not_true_eq_false, false_and,
          or_false]
        exact eq_comm
      · rw [frame_phase_raised f_draw fr s1 hfps]
        simp [hfps]
    simp only
    rw [hframe]
    constructor
    · intro h
      exact Or.inr ⟨s1, rfl, h⟩
    · rintro (⟨hflag, h⟩ | ⟨s1', hs1, h⟩)
      · exfalso
        rcases h with h | ⟨cfg, hcfg, h⟩
        · rw [reload_phase_failed title f_update fr s hflag e h] at hr
          simp at hr
        · rw [reload_phase_set title f_update fr s hflag cfg hcfg] at hr
          simp only [Prod.mk.injEq] at hr
          rw [hr.2] at h
          simp at h
      · simp only [Prod.mk.injEq, and_true] at hs1
        rw [hs1]
        exact h
  · simp only [Option.some.injEq]
    constructor
    · rintro rfl
      left
      rcases hflag : s.config_reload with _ | _
      · rw [reload_phase_clear title f_update fr s hflag] at hr
        simp at hr
      · refine ⟨rfl, ?_⟩
        rcases hcfg : fr.reloaded with e2 | cfg
        · rw [reload_phase_failed title f_update fr s hflag e2 hcfg] at hr
          simp only [Prod.mk.injEq, Option.some.injEq] at hr
          exact Or.inl (by rw [hr.2])
        · rw [reload_phase_set title f_update fr s hflag cfg hcfg] at hr
          simp only [Prod.mk.injEq] at hr
          exact Or.inr ⟨cfg, rfl, hr.2⟩
    · rintro (⟨hflag, h⟩ | ⟨s1', hs1, -⟩)
      · rcases h with h | ⟨cfg, hcfg, h⟩
        · rw [reload_phase_failed title f_update fr s hflag e h] at hr
          simp only [Prod.mk.injEq, Option.some.injEq] at hr
          exact hr.2.symm
        · rw [reload_phase_set title f_update fr s hflag cfg hcfg] at hr
          simp only [Prod.mk.injEq] at hr
          rw [hr.2] at h
          simpa using h
      · simp at hs1

theorem handler_not_zero (joins : Bool) (e : Exn) (err : List String) :
    handler joins e ≠ Outcome.returned 0 err := by
  cases e <;> cases joins <;> simp [handler]

theorem handler_other (joins : Bool) (e : Exn) (h : ∀ what, e ≠ Exn.runtime_error what) :
    handler joins e = Outcome.aborted e := by
  cases e with
  | runtime_error what => exact absurd rfl (h what)
  | out_of_range what => rfl
  | other what => rfl
  | fault what => rfl

/-- What the handler of `main` makes of an exception, spelt out. -/
theorem handler_spec (joins : Bool) (e : Exn) (o : Outcome) (h : o = handler joins e) :
    (∀ what, e = Exn.runtime_error what →
      o = if joins then Outcome.returned 1 [what] else Outcome.hangs) ∧
    ((∀ what, e ≠ Exn.runtime_error what) → o = Outcome.aborted e) := by
  subst h
  refine ⟨?_, handler_other joins e⟩
  rintro what rfl
  rfl

/-- C9, as the code has it.  `main` returns 0 exactly when the setup succeeds,
`mainloop` is left through the close check at the end of an iteration, and the
join of `~Input_thread` returns.  An exception that leaves the setup, or that
`config.reload()`, the on-reload callback or the draw callback raise in an
iteration, is not caught inside `mainloop`.  When it is a `std::runtime_error`
(or derived from it, as `glfw_error`), the handler of `main` takes it: `main`
writes its message to stderr and returns 1, provided, when the `Input_thread`
exists already, that its join returns; otherwise `main` stays blocked in that
join.  An exception of any other class is not taken by the handler, and `main`
returns no exit code.  A failing `Config` constructor, `glfwInit` and
`glfwCreateWindow` make the setup fail before the `Input_thread` exists, the
last two with a `std::runtime_error`. -/
theorem main_outcome (ext : Ext SR OR SC OC) (setup : Setup SC OC)
    (frames : List (Frame SC OC)) :
    ((∃ err, main ext setup frames = Outcome.returned 0 err) ↔
      setup.join_returns = true ∧
      ∃ s pre fr post s1 s2, startup ext setup = .ok s ∧ frames = pre ++ fr :: post ∧
        mainloop (generate_title ext) (f_update ext s.config.stereo)
          (f_draw ext s.config.stereo) pre s = (s1, Ended.running) ∧
        iteration (generate_title ext) (f_update ext s.config.stereo)
          (f_draw ext s.config.stereo) fr s1 = (s2, none) ∧
        fr.should_close ≠ 0) ∧
    (∀ e, startup_thread ext setup = .error e →
      (∀ what, e = Exn.runtime_error what →
        main ext setup frames = Outcome.returned 1 [what]) ∧
      ((∀ what, e ≠ Exn.runtime_error what) →
        main ext setup frames = Outcome.aborted e)) ∧
    (∀ e, ((∃ s, startup_thread ext setup = .ok s ∧ setup.fft = some e) ∨
        ∃ s pre fr post s1, startup ext setup = .ok s ∧ frames = pre ++ fr :: post ∧
          mainloop (generate_title ext) (f_update ext s.config.stereo)
            (f_draw ext s.config.stereo) pre s = (s1, Ended.running) ∧
          (iteration (generate_title ext) (f_update ext s.config.stereo)
            (f_draw ext s.config.stereo) fr s1).2 = some e) →
      (∀ what, e = Exn.runtime_error what →
        main ext setup frames
          = if setup.join_returns then Outcome.returned 1 [what] else Outcome.hangs) ∧
      ((∀ what, e ≠ Exn.runtime_error what) →
        main ext setup frames = Outcome.aborted e)) ∧
    (∀ stereo fr (s : Loop SC OC (App SR OR)) e,
      (iteration (generate_title ext) (f_update ext stereo) (f_draw ext stereo) fr s).2
          = some e ↔
        (s.config_reload = true ∧
          (fr.reloaded = .error e ∨
            ∃ cfg, fr.reloaded = .ok cfg ∧ (f_update ext stereo cfg s.app).2 = some e)) ∨
        (∃ s1, reload_phase (generate_title ext) (f_update ext stereo) fr s = (s1, none) ∧
          ((s1.config.fps = 0 ∧ e = Exn.fault "division by zero") ∨
           (s1.config.fps ≠ 0 ∧ (f_draw ext stereo s1.config s1.app).2 = some e)))) ∧
    (∀ e, setup.config = .error e → startup_thread ext setup = .error e) ∧
    (∀ c, setup.config = .ok c → setup.input = none → setup.glfw_init = false →
      startup_thread ext setup = .error (Exn.runtime_error "GLFW init failed!")) ∧
    (∀ c, setup.config = .ok c → setup.input = none → setup.glfw_init = true →
      setup.window = false →
      startup_thread ext setup
        = .error (Exn.runtime_error "Failed to create GLFW Window!")) := by
  refine ⟨?_, ?_, ?_, ?_, ?_, ?_, ?_⟩
  · simp only [main]
    rcases hs : startup_thread ext setup with e | s
    · constructor
      · rintro ⟨err, h⟩
        exact absurd h (handler_not_zero true e err)
      · rintro ⟨-, s, -, -, -, -, -, h, -⟩
        rw [startup_ok, hs] at h
        cases h.1
    · rcases hf : setup.fft with _ | e
      · have hst : startup ext setup = .ok s := (startup_ok ext setup s).mpr ⟨hs, hf⟩
        simp only [hst, Except.ok.injEq]
        constructor
        · rintro ⟨err, h⟩
          rcases hm : (mainloop (generate_title ext) (f_update ext s.config.stereo)
            (f_draw ext s.config.stereo) frames s).2 with _ | e | _
          · rw [hm] at h
            simp only [leave] at h
            have hj : setup.join_returns = true := by
              by_contra hj
              simp [hj] at h
            obtain ⟨pre, fr, post, s1, s2, h1, h2, h3, h4⟩ :=
              (mainloop_closed_iff _ _ _ frames s).mp hm
            exact ⟨hj, s, pre, fr, post, s1, s2, rfl, h1, h2, h3, h4⟩
          · rw [hm] at h
            exact absurd h (handler_not_zero _ e err)
          · rw [hm] at h
            simp at h
        · rintro ⟨hj, s', pre, fr, post, s1, s2, hs', h1, h2, h3, h4⟩
          subst hs'
          rw [(mainloop_closed_iff _ _ _ frames s).mpr ⟨pre, fr, post, s1, s2, h1, h2, h3, h4⟩]
          exact ⟨[], by simp [leave, hj]⟩
      · constructor
        · rintro ⟨err, h⟩
          exact absurd h (handler_not_zero _ e err)
        · rintro ⟨-, s', -, -, -, -, -, h, -⟩
          rw [startup_ok, hf] at h
          cases h.2
  · intro e h
    exact handler_spec true e _ (by simp only [main, h])
  · intro e h
    apply handler_spec
    simp only [main]
    rcases h with ⟨s, hs, hf⟩ | ⟨s, pre, fr, post, s1, hs, h1, h2, h3⟩
    · rw [hs, hf]
    · obtain ⟨hs', hf⟩ := (startup_ok ext setup s).mp hs
      rw [hs', hf]
      simp only
      rw [(mainloop_raised_iff _ _ _ frames e s).mpr ⟨pre, fr, post, s1, h1, h2, h3⟩]
  · intro stereo fr s e
    exact iteration_raised_iff _ _ _ fr s e
  · intro e h
    simp [startup_thread, h]
  · intro c hc hi hg
    simp [startup_thread, hc, hi, hg]
  · intro c hc hi hg hw
    simp [startup_thread, hc, hi, hg, hw]

end MainProps


/-- A run of C7 with the callbacks of `main`: the first frame is drawn with
two spectra and one oscilloscope, as configured at startup; a reload to one
spectrum config and no oscilloscope config follows, and the second frame is
drawn with one spectrum and no oscilloscope. -/
theorem main_renderer_lists_witness :
    (main_draw_states test_ext test_setup [test_reload_frame 0, test_reload_frame 1]).map
        (fun st => (st.app.spectra.length, st.config.spectra.length,
          st.app.oscilloscopes.length, st.config.oscilloscopes.length))
      = [(2, 2, 1, 1), (1, 1, 0, 0)] ∧
    ∀ st ∈ main_draw_states test_ext test_setup [test_reload_frame 0, test_reload_frame 1],
      st.app.spectra.length = st.config.spectra.length ∧
      st.app.oscilloscopes.length = st.config.oscilloscopes.length :=
  ⟨by decide!,
   main_renderer_lists test_ext TestRenderer.configure TestRenderer.ctor
     TestRenderer.configure TestRenderer.ctor rfl rfl rfl rfl test_setup
     [test_reload_frame 0, test_reload_frame 1]⟩

/-- Runs of C9 with the callbacks of `main`: the window is closed at the end
of the second iteration and `main` returns 0; and when `glfwInit()` fails,
`main` writes the message to stderr and returns 1. -/
theorem main_outcome_witness :
    main test_ext test_setup [test_reload_frame 0, test_reload_frame 1]
      = Outcome.returned 0 [] ∧
    main test_ext { test_setup with glfw_init := false } [test_reload_frame 0]
      = Outcome.returned 1 ["GLFW init failed!"] :=
  ⟨by decide!,
   ((main_outcome test_ext { test_setup with glfw_init := false } [test_reload_frame 0]).2.1
      (Exn.runtime_error "GLFW init failed!") rfl).1 "GLFW init failed!" rfl⟩

/-- C9 as stated fails, in two ways.  The setup succeeds and `calculate` throws
an exception that is not a `std::runtime_error` inside the draw callback of the
first iteration: the handler of `main` does not take it and `main` does not
return 1.  And the setup succeeds and the window is closed at the end of the
first iteration, but the read of the capture thread never returns: `main`
stays in the join of `~Input_thread` and does not return 0. -/
theorem main_outcome_counterexample :
    (∃ s, startup failing_ext test_setup = .ok s) ∧
    (f_draw failing_ext false test_config (test_app [0, 1] [2])).2
      = some (Exn.other "std::bad_alloc") ∧
    main failing_ext test_setup [test_frame 0 0 [] 0]
      = Outcome.aborted (Exn.other "std::bad_alloc") ∧
    main failing_ext test_setup [test_frame 0 0 [] 0]
      ≠ Outcome.returned 1 ["std::bad_alloc"] ∧
    (∃ s, startup test_ext { test_setup with join_returns := false } = .ok s ∧
      (mainloop (generate_title test_ext) (f_update test_ext s.config.stereo)
        (f_draw test_ext s.config.stereo) [test_reload_frame 1] s).2 = Ended.closed) ∧
    main test_ext { test_setup with join_returns := false } [test_reload_frame 1]
      = Outcome.hangs ∧
    main test_ext { test_setup with join_returns := false } [test_reload_frame 1]
      ≠ Outcome.returned 0 [] :=
  ⟨⟨_, rfl⟩, by decide!, by decide!, by decide!, ⟨_, rfl, by decide!⟩, by decide!, by decide!⟩

/-! ## The capture wrapper -/

theorem after_append (e x : ThEv) (ev : List ThEv) :
    after e (ev ++ [x]) = if e ∈ ev then after e ev ++ [x] else [] := by
  induction ev with
  | nil => by_cases h : x = e <;> simp [after, h]
  | cons y ev ih =>
    by_cases h : y = e
    · simp [after, h]
    · have h' : ¬ e = y := fun h2 => h h2.symm
      simp [after, h, h', ih]

theorem after_append_two (e x y : ThEv) (ev : List ThEv) :
    after e (ev ++ [x, y]) =
      if e ∈ ev then after e ev ++ [x, y] else if x = e then [y] else [] := by
  have h : ev ++ [x, y] = (ev ++ [x]) ++ [y] := by simp
  rw [h, after_append, after_append]
  by_cases h1 : e ∈ ev
  · simp [h1]
  · by_cases h2 : x = e
    · simp [h1, h2, after_append]
    · have h2' : ¬ e = x := fun h => h2 h.symm
      simp [h1, h2, h2']

theorem reads_append (x : ThEv) (ev : List ThEv) :
    ((after ThEv.store_false (ev ++ [x])).filter ThEv.isReadBegin).length =
      if ThEv.store_false ∈ ev then
        ((after ThEv.store_false ev).filter ThEv.isReadBegin).length
          + (if x.isReadBegin then 1 else 0)
      else 0 := by
  rw [after_append]
  by_cases h : ThEv.store_false ∈ ev
  · by_cases hx : x.isReadBegin = true <;> simp [h, hx, List.filter_cons]
  · simp [h]

theorem reads_not_stopped (ev : List ThEv) (h : ThEv.store_false ∉ ev) :
    after ThEv.store_false ev = [] := by
  induction ev with
  | nil => rfl
  | cons y ev ih =>
    simp only [List.mem_cons, not_or] at h
    have h1 : ¬ y = ThEv.store_false := fun h2 => h.1 h2.symm
    simp [after, h1, ih h.2]

theorem quiet_append (x : ThEv) (ev : List ThEv) (h : ThEv.join_return ∉ ev) :
    after ThEv.join_return (ev ++ [x]) = [] := by
  rw [after_append, if_neg h]

theorem blocks_succ (stereo : Bool) (n : Nat) :
    (List.replicate (n + 1)
        [ThEv.tested true, ThEv.read_begin stereo, ThEv.read_end stereo]).flatten
      = (List.replicate n
          [ThEv.tested true, ThEv.read_begin stereo, ThEv.read_end stereo]).flatten
        ++ [ThEv.tested true, ThEv.read_begin stereo, ThEv.read_end stereo] := by
  rw [List.replicate_succ', List.flatten_append]
  simp

theorem th_inv_init (stereo : Bool) : th_inv stereo (Input_thread stereo) where
  stereo_eq := rfl
  alive := fun _ => ⟨rfl, by simp [Input_thread]⟩
  stopped := fun h => absurd rfl h
  reads := by simp [Input_thread, after]
  calling := by simp [Input_thread]
  joined := by simp [Input_thread]
  not_joined := by simp [Input_thread]
  quiet := rfl
  pattern := ⟨0, rfl⟩
  no_test := by simp [Input_thread, after]

theorem th_inv_bg (stereo : Bool) (s : InputThread) (h : th_inv stereo s) :
    th_inv stereo (bg_step s) := by
  obtain ⟨n, hn⟩ := h.pattern
  have hnj : ThEv.join_return ∉ s.events ∨ s.bg = BgPc.exited := by
    by_cases ho : s.owner = OwnerPc.returned
    · exact Or.inr (h.joined ho).1
    · exact Or.inl (h.not_joined ho)
  rcases hpc : s.bg with _ | _ | _ | _
  · -- test
    have hnj' : ThEv.join_return ∉ s.events := by
      rcases hnj with h1 | h1
      · exact h1
      · rw [hpc] at h1; cases h1
    have hnr : s.owner ≠ OwnerPc.returned := fun ho => by
      have := (h.joined ho).1; rw [hpc] at this; cases this
    rcases hrun : s.running with _ | _
    · -- leaves the loop
      have halive : s.owner ≠ OwnerPc.alive := fun ho => by
        have := (h.alive ho).1; rw [hrun] at this; cases this
      have hs : bg_step s =
          { s with bg := BgPc.exited, events := s.events ++ [ThEv.tested false, ThEv.bg_exit] } := by
        simp [bg_step, hpc, hrun]
      rw [hs]
      refine ⟨h.stereo_eq, ?_, ?_, ?_, ?_, ?_, ?_, ?_, ?_, ?_⟩
      all_goals dsimp only
      · intro ho; exact absurd ho halive
      · intro _; exact ⟨hrun, List.mem_append_left _ (h.stopped halive).2⟩
      · have h2 : s.events ++ [ThEv.tested false, ThEv.bg_exit]
            = (s.events ++ [ThEv.tested false]) ++ [ThEv.bg_exit] := by simp
        rw [h2, reads_append, reads_append]
        have := h.reads
        simp [(h.stopped halive).2, ThEv.isReadBegin]
        exact this
      · intro hc; cases hc
      · intro ho; exact absurd ho hnr
      · intro _; simp [hnj']
      · have h2 : s.events ++ [ThEv.tested false, ThEv.bg_exit]
            = (s.events ++ [ThEv.tested false]) ++ [ThEv.bg_exit] := by simp
        rw [h2, quiet_append _ _ (by simp [hnj'])]
      · refine ⟨n, ?_⟩
        rw [List.filter_append, hn, hpc]
        simp [bg_events, ThEv.isBg]
      · have h2 : s.events ++ [ThEv.tested false, ThEv.bg_exit]
            = (s.events ++ [ThEv.tested false]) ++ [ThEv.bg_exit] := by simp
        rw [h2, after_append, after_append]
        have := h.no_test
        simp [(h.stopped halive).2, this]
    · -- enters the loop body
      have halive : s.owner = OwnerPc.alive := by
        by_contra ho
        have := (h.stopped ho).1; rw [hrun] at this; cases this
      have hs : bg_step s =
          { s with bg := BgPc.calling, events := s.events ++ [ThEv.tested true] } := by
        simp [bg_step, hpc, hrun]
      rw [hs]
      refine ⟨h.stereo_eq, ?_, ?_, ?_, ?_, ?_, ?_, ?_, ?_, ?_⟩
      all_goals dsimp only
      · intro _; exact ⟨hrun, by simp [(h.alive halive).2]⟩
      · intro ho; exact absurd halive ho
      · rw [reads_append, if_neg (h.alive halive).2]; exact Nat.zero_le _
      · intro _; rw [reads_append, if_neg (h.alive halive).2]
      · intro ho; exact absurd ho hnr
      · intro _; simp [hnj']
      · exact quiet_append _ _ hnj'
      · refine ⟨n, ?_⟩
        rw [List.filter_append, hn, hpc]
        simp [bg_events, ThEv.isBg]
      · rw [after_append, if_neg (h.alive halive).2]
        simp
  · -- calling
    have hnj' : ThEv.join_return ∉ s.events := by
      rcases hnj with h1 | h1
      · exact h1
      · rw [hpc] at h1; cases h1
    have hnr : s.owner ≠ OwnerPc.returned := fun ho => by
      have := (h.joined ho).1; rw [hpc] at this; cases this
    have hk := h.calling hpc
    have hs : bg_step s =
          { s with bg := BgPc.reading, events := s.events ++ [ThEv.read_begin s.stereo] } := by
      simp [bg_step, hpc]
    rw [hs]
    refine ⟨h.stereo_eq, ?_, ?_, ?_, ?_, ?_, ?_, ?_, ?_, ?_⟩
    all_goals dsimp only
    · intro ho; exact ⟨(h.alive ho).1, by simp [(h.alive ho).2]⟩
    · intro ho; exact ⟨(h.stopped ho).1, List.mem_append_left _ (h.stopped ho).2⟩
    · rw [reads_append, hk]
      by_cases hst : ThEv.store_false ∈ s.events <;> simp [hst, ThEv.isReadBegin]
    · intro hc; cases hc
    · intro ho; exact absurd ho hnr
    · intro _; simp [hnj']
    · exact quiet_append _ _ hnj'
    · refine ⟨n, ?_⟩
      rw [List.filter_append, hn, hpc, h.stereo_eq]
      simp [bg_events, ThEv.isBg]
    · rw [after_append]
      have := h.no_test
      by_cases hst : ThEv.store_false ∈ s.events <;> simp [hst, this]
  · -- reading
    have hnj' : ThEv.join_return ∉ s.events := by
      rcases hnj with h1 | h1
      · exact h1
      · rw [hpc] at h1; cases h1
    have hnr : s.owner ≠ OwnerPc.returned := fun ho => by
      have := (h.joined ho).1; rw [hpc] at this; cases this
    have hs : bg_step s =
          { s with bg := BgPc.test, events := s.events ++ [ThEv.read_end s.stereo] } := by
      simp [bg_step, hpc]
    rw [hs]
    refine ⟨h.stereo_eq, ?_, ?_, ?_, ?_, ?_, ?_, ?_, ?_, ?_⟩
    all_goals dsimp only
    · intro ho; exact ⟨(h.alive ho).1, by simp [(h.alive ho).2]⟩
    · intro ho; exact ⟨(h.stopped ho).1, List.mem_append_left _ (h.stopped ho).2⟩
    · rw [reads_append]
      have := h.reads
      by_cases hst : ThEv.store_false ∈ s.events <;> simp [hst, ThEv.isReadBegin]
      exact this
    · intro hc; cases hc
    · intro ho; exact absurd ho hnr
    · intro _; simp [hnj']
    · exact quiet_append _ _ hnj'
    · refine ⟨n + 1, ?_⟩
      rw [List.filter_append, hn, hpc, h.stereo_eq]
      simp only [bg_events, blocks_succ]
      simp [ThEv.isBg]
    · rw [after_append]
      have := h.no_test
      by_cases hst : ThEv.store_false ∈ s.events <;> simp [hst, this]
  · -- exited
    have hs : bg_step s = s := by simp [bg_step, hpc]
    rw [hs]
    exact h

theorem th_inv_owner (stereo : Bool) (s : InputThread) (h : th_inv stereo s) :
    th_inv stereo (owner_step s) := by
  obtain ⟨n, hn⟩ := h.pattern
  rcases hpc : s.owner with _ | _ | _
  · -- the destructor stores `running = false`
    have hs : owner_step s =
        { s with running := false, owner := OwnerPc.joining,
                 events := s.events ++ [ThEv.store_false] } := by
      simp [owner_step, hpc]
    have hnr : s.owner ≠ OwnerPc.returned := by rw [hpc]; intro h; cases h
    have hnj := h.not_joined hnr
    rw [hs]
    refine ⟨h.stereo_eq, ?_, ?_, ?_, ?_, ?_, ?_, ?_, ?_, ?_⟩
    all_goals dsimp only
    · intro ho; cases ho
    · intro _; exact ⟨rfl, by simp⟩
    · rw [reads_append, if_neg (h.alive hpc).2]; exact Nat.zero_le _
    · intro _; rw [reads_append, if_neg (h.alive hpc).2]
    · intro ho; cases ho
    · intro _; simp [hnj]
    · exact quiet_append _ _ hnj
    · refine ⟨n, ?_⟩
      rw [List.filter_append, hn]
      simp [ThEv.isBg]
    · rw [after_append, if_neg (h.alive hpc).2]
      simp
  · -- the destructor is in `join`
    have hna : s.owner ≠ OwnerPc.alive := by rw [hpc]; intro h; cases h
    have hnr : s.owner ≠ OwnerPc.returned := by rw [hpc]; intro h; cases h
    have hnj := h.not_joined hnr
    by_cases hbg : s.bg = BgPc.exited
    · have hs : owner_step s =
          { s with owner := OwnerPc.returned, events := s.events ++ [ThEv.join_return] } := by
        simp [owner_step, hpc, hbg]
      rw [hs]
      refine ⟨h.stereo_eq, ?_, ?_, ?_, ?_, ?_, ?_, ?_, ?_, ?_⟩
      all_goals dsimp only
      · intro ho; cases ho
      · intro _; exact ⟨(h.stopped hna).1, List.mem_append_left _ (h.stopped hna).2⟩
      · rw [reads_append, if_pos (h.stopped hna).2]
        have := h.reads
        simpa [ThEv.isReadBegin] using this
      · intro hc; rw [hbg] at hc; cases hc
      · intro _; exact ⟨hbg, by simp⟩
      · intro ho; exact absurd rfl ho
      · exact quiet_append _ _ hnj
      · refine ⟨n, ?_⟩
        rw [List.filter_append, hn]
        simp [ThEv.isBg]
      · rw [after_append, if_pos (h.stopped hna).2]
        have := h.no_test
        simp [this]
    · have hs : owner_step s = s := by simp [owner_step, hpc, hbg]
      rw [hs]
      exact h
  · have hs : owner_step s = s := by simp [owner_step, hpc]
    rw [hs]
    exact h

theorem th_inv_run (stereo : Bool) (schedule : List Move) :
    ∀ s, th_inv stereo s → th_inv stereo (th_run schedule s) := by
  induction schedule with
  | nil => intro s h; exact h
  | cons m ms ih =>
    intro s h
    simp only [th_run, List.foldl_cons]
    apply ih
    cases m
    · exact th_inv_bg stereo s h
    · exact th_inv_owner stereo s h

theorem th_step_stopped (s : InputThread) (m : Move) (h : s.running = false) :
    (th_step s m).running = false ∧
    bg_distance (th_step s m).bg + (if m = Move.bg then 1 else 0) ≤
      max (bg_distance s.bg) (if m = Move.bg then 1 else 0) := by
  cases m
  · rcases hpc : s.bg with _ | _ | _ | _ <;>
      simp [th_step, bg_step, hpc, h, bg_distance]
  · rcases hpc : s.owner with _ | _ | _
    · simp [th_step, owner_step, hpc]
    · by_cases hbg : s.bg = BgPc.exited <;> simp [th_step, owner_step, hpc, hbg, h]
    · simp [th_step, owner_step, hpc, h]

theorem th_run_stopped (schedule : List Move) :
    ∀ s : InputThread, s.running = false →
      (th_run schedule s).running = false ∧
      bg_distance (th_run schedule s).bg ≤ bg_distance s.bg - bg_moves schedule := by
  induction schedule with
  | nil => intro s h; exact ⟨h, by simp [th_run, bg_moves]⟩
  | cons m ms ih =>
    intro s h
    obtain ⟨h1, h2⟩ := th_step_stopped s m h
    obtain ⟨h3, h4⟩ := ih (th_step s m) h1
    simp only [th_run, List.foldl_cons] at h3 h4 ⊢
    refine ⟨h3, ?_⟩
    cases m
    · simp only [bg_moves, List.count_cons_self] at h4 ⊢
      simp only [if_true] at h2
      omega
    · have hc : bg_moves (Move.owner :: ms) = bg_moves ms := by
        simp [bg_moves, List.count_cons]
      rw [hc]
      simp at h2
      omega

theorem bg_distance_zero (pc : BgPc) (h : bg_distance pc = 0) : pc = BgPc.exited := by
  cases pc <;> simp [bg_distance] at h ⊢

theorem th_run_append (a b : List Move) (s : InputThread) :
    th_run (a ++ b) s = th_run b (th_run a s) := by
  simp [th_run, List.foldl_append]

/-- C10. Capture shutdown.  For either constructor and under every
interleaving of the background lambda with the destructor: the background
thread does nothing but rounds of one test of `running`, the call of the read
and its return, so the flag is tested once before each read and never inside
one; after the store `running = false` at most one further read is started,
and no test succeeds any more, so that the test of this read preceded the
store;
the destructor returns only when the background thread has exited, and then
nothing happens any more, in particular no read; and once the store is made,
three further steps of the background thread bring it to its exit, after
which the next step of the destructor returns. -/
theorem input_thread_shutdown (stereo : Bool) (schedule : List Move) :
    (∃ n, (th_run schedule (Input_thread stereo)).events.filter ThEv.isBg
        = bg_events stereo n (th_run schedule (Input_thread stereo)).bg) ∧
    ((after ThEv.store_false (th_run schedule (Input_thread stereo)).events).filter
        ThEv.isReadBegin).length ≤ 1 ∧
    ThEv.tested true ∉ after ThEv.store_false (th_run schedule (Input_thread stereo)).events ∧
    (ThEv.join_return ∈ (th_run schedule (Input_thread stereo)).events ↔
      (th_run schedule (Input_thread stereo)).owner = OwnerPc.returned) ∧
    ((th_run schedule (Input_thread stereo)).owner = OwnerPc.returned →
      (th_run schedule (Input_thread stereo)).bg = BgPc.exited) ∧
    after ThEv.join_return (th_run schedule (Input_thread stereo)).events = [] ∧
    (∀ more, (th_run schedule (Input_thread stereo)).owner ≠ OwnerPc.alive →
      3 ≤ bg_moves more →
      (th_run more (th_run schedule (Input_thread stereo))).bg = BgPc.exited ∧
      (th_run (more ++ [Move.owner]) (th_run schedule (Input_thread stereo))).owner
        = OwnerPc.returned) := by
  have h := th_inv_run stereo schedule _ (th_inv_init stereo)
  refine ⟨h.pattern, h.reads, h.no_test, ?_, fun ho => (h.joined ho).1, h.quiet, ?_⟩
  · constructor
    · intro hj
      by_contra ho
      exact h.not_joined ho hj
    · intro ho
      exact (h.joined ho).2
  · intro more ho hmore
    have hrun := (h.stopped ho).1
    obtain ⟨r1, r2⟩ := th_run_stopped more _ hrun
    have hd : bg_distance (th_run more (th_run schedule (Input_thread stereo))).bg ≤ 3 - bg_moves more := by
      refine le_trans r2 ?_
      have : bg_distance (th_run schedule (Input_thread stereo)).bg ≤ 3 := by
        cases (th_run schedule (Input_thread stereo)).bg <;> simp [bg_distance]
      omega
    have hex := bg_distance_zero _ (by omega :
      bg_distance (th_run more (th_run schedule (Input_thread stereo))).bg = 0)
    refine ⟨hex, ?_⟩
    have h2 := th_inv_run stereo more _ h
    have hna : (th_run more (th_run schedule (Input_thread stereo))).owner ≠ OwnerPc.alive := by
      intro ha
      have := (h2.alive ha).1
      rw [r1] at this
      cases this
    rw [th_run_append]
    simp only [th_run, List.foldl_cons, List.foldl_nil, th_step]
    rcases hpc : (List.foldl th_step (List.foldl th_step (Input_thread stereo) schedule)
      more).owner with _ | _ | _
    · exact absurd hpc hna
    · simp only [th_run] at hex
      simp [owner_step, hpc, hex]
    · simp [owner_step, hpc]

/-- A run of C10, mono: the test succeeds, the destructor stores
`running = false`, the read that was about to be called is made and returns,
the next test fails, and the destructor returns. -/
theorem input_thread_shutdown_witness :
    (th_run [Move.bg, Move.owner, Move.owner, Move.bg, Move.bg, Move.bg, Move.owner, Move.bg]
        (Input_thread false)).events
      = [ThEv.tested true, ThEv.store_false, ThEv.read_begin false, ThEv.read_end false,
         ThEv.tested false, ThEv.bg_exit, ThEv.join_return] ∧
    (th_run ([Move.bg, Move.bg, Move.bg] ++ [Move.owner])
        (th_run [Move.bg, Move.owner] (Input_thread false))).owner = OwnerPc.returned :=
  ⟨by decide,
   ((input_thread_shutdown false [Move.bg, Move.owner]).2.2.2.2.2.2
      [Move.bg, Move.bg, Move.bg] (by decide) (by decide)).2⟩

end GLMViz
